import Mathlib

/-!
Verification of the room/turn state machine of the Somali word-guess game.

The repository ships several interchangeable implementations of the same
game state machine; the ones the claims reference are embedded here:

* `RS` — the backend in-memory store `src/backend/trpc/routes/game/room-store.ts`.
  Its `GameState` matches the era of that file (no `turn` / `version` fields;
  `winner` may be `'assassinated'`).  Operations that `throw` are modelled with
  `Except String`; all mutations happen after the last possible throw in the
  source, so a thrown error leaves the room unchanged.
* `DB` — the client state container `src/contexts/game-context.tsx` working
  against the key-value adapter of `src/lib/database.ts` (rows `DBRoom` /
  `DBPlayer`).  The in-memory adapter merges updates with object spread, so a
  field explicitly set to `undefined` in an update overwrites the stored value;
  such fields are modelled as `Option` set to `none`.
* `SB` — the supabase client `src/unnamed/part_012` (rows `DbRoomRow` /
  `DbPlayerRow`).  Its `revealCard` performs all the silent-no-op precondition
  checks; the sequential (single-writer) semantics is modelled, i.e. the row
  fetched inside an operation is the current row.

Randomness (`Math.random`) is passed in explicitly: the Fisher-Yates shuffle
`shuffleArray` takes the list of random draws (the draw for index `i` is
reduced `% (i+1)`, exactly the range `Math.floor(Math.random()*(i+1))` can
produce), and `Date.now()` timestamps are plain parameters.  The word pool
`SOMALI_WORDS` (file `constants/somali-words.ts`, not part of the sources
provided) is a parameter as well.
-/

inductive Team where
  | red
  | blue
deriving DecidableEq, Repr

def Team.other : Team → Team
  | .red => .blue
  | .blue => .red

inductive CardType where
  | red
  | blue
  | neutral
  | assassin
deriving DecidableEq, Repr

inductive Role where
  | spymaster
  | guesser
deriving DecidableEq, Repr

inductive TurnStatus where
  | WAITING_HINT
  | GUESSING
deriving DecidableEq, Repr

inductive GameStatus where
  | LOBBY
  | PLAYING
  | ENDED
deriving DecidableEq, Repr

/-- `winner` values of the room-store variant: `'red' | 'blue' | 'assassinated'`. -/
inductive Winner where
  | red
  | blue
  | assassinated
deriving DecidableEq, Repr

/-- The team colour of a card type, if any. -/
def CardType.teamColor : CardType → Option Team
  | .red => some .red
  | .blue => some .blue
  | .neutral => none
  | .assassin => none

/-- The card type of a team's own colour. -/
def Team.cardType : Team → CardType
  | .red => .red
  | .blue => .blue

/-! ## Generic list helpers

`updateFirst` models the ubiquitous JS pattern
`const x = list.find(pred); x.field = v;` — an in-place mutation of the first
element matching the predicate. -/

/-- JS `String.prototype.trim()`: strip leading and trailing whitespace.
(Defined over the character list so that it evaluates inside the kernel;
`String.trim` of core does not reduce there.) -/
def jsTrim (s : String) : String :=
  String.mk
    ((s.data.dropWhile Char.isWhitespace).reverse.dropWhile Char.isWhitespace).reverse

def updateFirst (P : α → Bool) (f : α → α) : List α → List α
  | [] => []
  | x :: xs => if P x then f x :: xs else x :: updateFirst P f xs

theorem updateFirst_length (P : α → Bool) (f : α → α) (l : List α) :
    (updateFirst P f l).length = l.length := by
  induction l with
  | nil => rfl
  | cons x xs ih =>
    simp only [updateFirst]
    by_cases h : P x <;> simp [h, ih]

/-- JS in-place swap `[a[i], a[j]] = [a[j], a[i]]` on a copied array. -/
def swapL (l : List α) (i j : Nat) : List α :=
  match l[i]?, l[j]? with
  | some a, some b => (l.set i b).set j a
  | _, _ => l

theorem swapL_length (l : List α) (i j : Nat) : (swapL l i j).length = l.length := by
  unfold swapL
  cases hi : l[i]? <;> cases hj : l[j]? <;> simp

theorem perm_cons_set {xs : List α} {m : Nat} {b x : α} (h : xs[m]? = some b) :
    (b :: xs.set m x).Perm (x :: xs) := by
  induction xs generalizing m with
  | nil => simp at h
  | cons y t ih =>
    cases m with
    | zero =>
      simp only [List.getElem?_cons_zero, Option.some.injEq] at h
      subst h
      simpa using List.Perm.swap x y t
    | succ m =>
      simp only [List.getElem?_cons_succ] at h
      have h1 : (b :: y :: t.set m x).Perm (y :: b :: t.set m x) := List.Perm.swap y b _
      have h2 : (y :: b :: t.set m x).Perm (y :: x :: t) := (ih h).cons y
      have h3 : (y :: x :: t).Perm (x :: y :: t) := List.Perm.swap x y t
      exact (h1.trans h2).trans h3

theorem swapL_perm (l : List α) (i j : Nat) : (swapL l i j).Perm l := by
  induction l generalizing i j with
  | nil => unfold swapL; simp
  | cons y t ih =>
    unfold swapL
    cases i with
    | zero =>
      cases j with
      | zero => simp
      | succ m =>
        cases hj : t[m]? with
        | none => simp [List.getElem?_cons_succ, hj]
        | some b =>
          simp only [List.getElem?_cons_zero, List.getElem?_cons_succ, hj, List.set]
          simpa using perm_cons_set (x := y) hj
    | succ n =>
      cases hi : t[n]? with
      | none => simp [List.getElem?_cons_succ, hi]
      | some a =>
        cases j with
        | zero =>
          simp only [List.getElem?_cons_zero, List.getElem?_cons_succ, hi, List.set]
          simpa using perm_cons_set (x := y) hi
        | succ m =>
          cases hj : t[m]? with
          | none => simp [List.getElem?_cons_succ, hi, hj]
          | some b =>
            simp only [List.getElem?_cons_succ, hi, hj, List.set]
            have := ih n m
            unfold swapL at this
            rw [hi, hj] at this
            simpa using this.cons y

/-! ## Fisher-Yates shuffle (room-store `shuffleArray`, part_012 `shuffle`)

```js
for (let i = newArray.length - 1; i > 0; i -= 1) {
  const j = Math.floor(Math.random() * (i + 1));
  [newArray[i], newArray[j]] = [newArray[j], newArray[i]];
}
```
The random draws are consumed head-first from `rand`; the draw for index `i`
is taken `% (i + 1)`, which ranges over exactly the values
`Math.floor(Math.random() * (i + 1))` can take. -/

def fyGo : List Nat → Nat → List α → List α
  | _, 0, a => a
  | rand, i + 1, a => fyGo rand.tail i (swapL a (i + 1) (rand.headD 0 % (i + 2)))

def shuffleArray (rand : List Nat) (arr : List α) : List α :=
  fyGo rand (arr.length - 1) arr

theorem fyGo_perm (rand : List Nat) (i : Nat) (a : List α) : (fyGo rand i a).Perm a := by
  induction i generalizing rand a with
  | zero => exact List.Perm.refl a
  | succ i ih =>
    exact (ih rand.tail _).trans (swapL_perm a (i + 1) (rand.headD 0 % (i + 2)))

theorem shuffleArray_perm (rand : List Nat) (arr : List α) :
    (shuffleArray rand arr).Perm arr :=
  fyGo_perm rand (arr.length - 1) arr

theorem shuffleArray_length (rand : List Nat) (arr : List α) :
    (shuffleArray rand arr).length = arr.length :=
  (shuffleArray_perm rand arr).length_eq

/-! ## RS — the backend in-memory store (`room-store.ts`) -/

namespace RS

/-- `Card` of `types/game.ts`. -/
structure Card where
  id : String
  word : String
  type : CardType
  revealed : Bool
  revealedByTeam : Option Team
deriving DecidableEq, Repr

/-- `Hint` of `types/game.ts`. -/
structure Hint where
  word : String
  number : Nat
  team : Team
deriving DecidableEq, Repr

/-- `Player` of `types/game.ts`. -/
structure Player where
  id : String
  name : String
  team : Option Team
  role : Role
  micMuted : Bool
deriving DecidableEq, Repr

/-- `GameState` as the room-store constructs it (the era of this file has no
`turn`/`version` fields).  `redCardsLeft`/`blueCardsLeft` are JS numbers whose
decrement in `revealCard` is unguarded, hence `Int`. -/
structure GameState where
  cards : List Card
  currentTeam : Team
  redCardsLeft : Int
  blueCardsLeft : Int
  winner : Option Winner
  gameStarted : Bool
  currentHint : Option Hint
  hintHistory : List Hint
deriving DecidableEq, Repr

/-- `RoomState extends GameState`. -/
structure RoomState extends GameState where
  roomCode : String
  players : List Player
  redSpymasterId : Option String
  blueSpymasterId : Option String
deriving DecidableEq, Repr

/-- The `RED_CARDS`/`BLUE_CARDS`/`NEUTRAL_CARDS`/`ASSASSIN_CARDS` type list
(9/8/7/1). -/
def baseTypes : List CardType :=
  List.replicate 9 .red ++ List.replicate 8 .blue ++
    List.replicate 7 .neutral ++ List.replicate 1 .assassin

/-- One card of the generated deck: `{ id: `card-${timestamp}-${index}`,
word, type: shuffledTypes[index], revealed: false, revealedByTeam: null }`. -/
def mkDeckCard (ts : Nat) (shuffledTypes : List CardType) (iw : Nat × String) : Card :=
  { id := "card-" ++ toString ts ++ "-" ++ toString iw.1
    word := iw.2
    type := shuffledTypes.getD iw.1 .neutral
    revealed := false
    revealedByTeam := none }

/-- `createNewGameState`: 25 words drawn from the shuffled pool, a shuffled
9/8/7/1 type assignment, card ids `card-${timestamp}-${index}`.
`rand1`/`rand2` are the `Math.random` draws of the two `shuffleArray` calls,
`ts` is `Date.now()`, `pool` is `SOMALI_WORDS`. -/
def createNewGameState (pool : List String) (rand1 rand2 : List Nat) (ts : Nat) :
    GameState :=
  let selectedWords := (shuffleArray rand1 pool).take 25
  let shuffledTypes := shuffleArray rand2 baseTypes
  let cards : List Card := selectedWords.enum.map (mkDeckCard ts shuffledTypes)
  { cards := cards
    currentTeam := .red
    redCardsLeft := 9
    blueCardsLeft := 8
    winner := none
    gameStarted := true
    currentHint := none
    hintHistory := [] }

/-- `createPlayer`. -/
def createPlayer (id name : String) : Player :=
  { id := id, name := name, team := none, role := .guesser, micMuted := false }

/-- `ensurePlayer`: `room.players.find((p) => p.id === playerId)`. -/
def findPlayer (room : RoomState) (playerId : String) : Option Player :=
  room.players.find? fun p => p.id == playerId

/-- The spymaster slot selected by `team === "red" ? "redSpymasterId" : "blueSpymasterId"`.
The room-store computes this from a `Team` value (never null at those sites
except `resetGame`, see `spymasterKeyOfOptTeam`). -/
def slotOf (room : RoomState) : Team → Option String
  | .red => room.redSpymasterId
  | .blue => room.blueSpymasterId

def setSlot (room : RoomState) : Team → Option String → RoomState
  | .red, v => { room with redSpymasterId := v }
  | .blue, v => { room with blueSpymasterId := v }

/-- `player.team === "red" ? "redSpymasterId" : "blueSpymasterId"` applied to a
nullable team (as in `resetGame`): a `null` team selects the blue slot. -/
def spymasterKeyOfOptTeam : Option Team → Team
  | some .red => .red
  | _ => .blue

/-- `roomStore.createRoom` for a fixed generated `roomCode` (collision retry is
outside the single-room model).  Seeds the calling player. -/
def createRoom (roomCode playerId playerName : String)
    (pool : List String) (rand1 rand2 : List Nat) (ts : Nat) : RoomState × Player :=
  let baseGame := createNewGameState pool rand1 rand2 ts
  let player := createPlayer playerId (jsTrim playerName)
  let room : RoomState :=
    { baseGame with
      roomCode := roomCode
      players := [player]
      redSpymasterId := none
      blueSpymasterId := none }
  (room, player)

/-- `roomStore.joinRoom` on an existing room: reconnect updates the name in
place, otherwise a fresh spectator player is appended. -/
def joinRoom (room : RoomState) (playerId playerName : String) : RoomState × Player :=
  match room.players.find? (fun p => p.id == playerId) with
  | some existingPlayer =>
    let updated := { existingPlayer with name := jsTrim playerName }
    let players1 := updateFirst (fun p => p.id == playerId)
      (fun p => { p with name := jsTrim playerName }) room.players
    ({ room with players := players1 }, updated)
  | none =>
    let newPlayer := createPlayer playerId (jsTrim playerName)
    ({ room with players := room.players ++ [newPlayer] }, newPlayer)

/-- `roomStore.selectTeam`. -/
def selectTeam (room : RoomState) (playerId : String) (team : Team) :
    Except String RoomState :=
  match findPlayer room playerId with
  | none => .error "Player not found in this room"
  | some _ =>
    let players1 := updateFirst (fun p => p.id == playerId)
      (fun p => { p with team := some team }) room.players
    .ok { room with players := players1 }

/-- `roomStore.setRole`.  Returns the room together with `replacedSpymaster`. -/
def setRole (room : RoomState) (playerId : String) (role : Role) :
    Except String (RoomState × Bool) :=
  match findPlayer room playerId with
  | none => .error "Player not found in this room"
  | some player =>
    match player.team with
    | none => .error "Select a team before choosing a role"
    | some team =>
      let currentSpymaster := slotOf room team
      match role with
      | .spymaster =>
        let players1 :=
          match currentSpymaster with
          | some cur =>
            if cur ≠ playerId then
              updateFirst (fun p => p.id == cur) (fun p => { p with role := .guesser })
                room.players
            else room.players
          | none => room.players
        let players2 := updateFirst (fun p => p.id == playerId)
          (fun p => { p with role := .spymaster }) players1
        let room1 := setSlot { room with players := players2 } team (some playerId)
        let replaced :=
          match currentSpymaster with
          | some cur => cur ≠ playerId
          | none => false
        .ok (room1, replaced)
      | .guesser =>
        let room1 :=
          if currentSpymaster = some playerId then setSlot room team none else room
        let players1 := updateFirst (fun p => p.id == playerId)
          (fun p => { p with role := .guesser }) room1.players
        .ok ({ room1 with players := players1 }, false)

/-- `roomStore.revealCard`.  Thrown errors leave the room unchanged; a reveal
of an already-revealed card is a silent no-op (`return room`). -/
def revealCard (room : RoomState) (playerId cardId : String) :
    Except String RoomState :=
  match findPlayer room playerId with
  | none => .error "Player not found in this room"
  | some player =>
    if player.role ≠ .guesser then .error "Only guessers can reveal cards"
    else if player.team ≠ some room.currentTeam then .error "It is not your team's turn"
    else
      match room.cards.find? (fun c => c.id == cardId) with
      | none => .error "Card not found"
      | some card =>
        if card.revealed then .ok room
        else
          let cards1 := updateFirst (fun c => c.id == cardId)
            (fun c => { c with revealed := true, revealedByTeam := some room.currentTeam })
            room.cards
          let room1 := { room with cards := cards1 }
          let room2 :=
            match card.type with
            | .assassin => { room1 with winner := some .assassinated }
            | .red =>
              let left := room1.redCardsLeft - 1
              { room1 with
                redCardsLeft := left
                winner := if left = 0 then some .red else room1.winner }
            | .blue =>
              let left := room1.blueCardsLeft - 1
              { room1 with
                blueCardsLeft := left
                winner := if left = 0 then some .blue else room1.winner }
            | .neutral => room1
          if room2.winner.isSome then .ok room2
          else
            match card.type with
            | .neutral => .ok { room2 with currentTeam := room2.currentTeam.other }
            | .red =>
              if room2.currentTeam = .blue then .ok { room2 with currentTeam := .red }
              else .ok room2
            | .blue =>
              if room2.currentTeam = .red then .ok { room2 with currentTeam := .blue }
              else .ok room2
            | .assassin => .ok room2

/-- `updateHintHistory`: most-recent-first, capped at 3. -/
def updateHintHistory (room : RoomState) (hint : Hint) : RoomState :=
  { room with currentHint := some hint, hintHistory := (hint :: room.hintHistory).take 3 }

/-- `roomStore.sendHint`. -/
def sendHint (room : RoomState) (playerId word : String) (number : Nat) :
    Except String RoomState :=
  match findPlayer room playerId with
  | none => .error "Player not found in this room"
  | some _ =>
    if slotOf room room.currentTeam ≠ some playerId then
      .error "Only the current team's Spymaster can send hints"
    else
      .ok (updateHintHistory room { word := word, number := number, team := room.currentTeam })

/-- `roomStore.endTurn` (checks only the current team's spymaster slot). -/
def endTurn (room : RoomState) (playerId : String) : Except String RoomState :=
  if slotOf room room.currentTeam ≠ some playerId then
    .error "Only the current team's Spymaster can end the turn"
  else
    .ok { room with currentTeam := room.currentTeam.other, currentHint := none }

/-- `resetRoomGameState`: copy the freshly generated game fields onto the room. -/
def resetRoomGameState (room : RoomState) (pool : List String)
    (rand1 rand2 : List Nat) (ts : Nat) : RoomState :=
  let nextGame := createNewGameState pool rand1 rand2 ts
  { room with
    cards := nextGame.cards
    currentTeam := nextGame.currentTeam
    redCardsLeft := nextGame.redCardsLeft
    blueCardsLeft := nextGame.blueCardsLeft
    winner := nextGame.winner
    currentHint := nextGame.currentHint
    hintHistory := nextGame.hintHistory
    gameStarted := nextGame.gameStarted }

/-- `roomStore.resetGame`.  The slot key is computed from the caller's nullable
team: a `null` (or blue) team checks the blue slot. -/
def resetGame (room : RoomState) (playerId : String) (pool : List String)
    (rand1 rand2 : List Nat) (ts : Nat) : Except String RoomState :=
  match findPlayer room playerId with
  | none => .error "Player not found in this room"
  | some player =>
    if slotOf room (spymasterKeyOfOptTeam player.team) ≠ some playerId then
      .error "Only a Spymaster can reset the game"
    else
      .ok (resetRoomGameState room pool rand1 rand2 ts)

/-- `roomStore.toggleMic`. -/
def toggleMic (room : RoomState) (playerId : String) : Except String RoomState :=
  match findPlayer room playerId with
  | none => .error "Player not found in this room"
  | some _ =>
    let players1 := updateFirst (fun p => p.id == playerId)
      (fun p => { p with micMuted := !p.micMuted }) room.players
    .ok { room with players := players1 }

end RS

/-- JS `arr[i] = v` on a copied array: out-of-range writes extend the array,
and the holes read back as `undefined`, which every consumer here treats as
`false` — so they are modelled as `false` padding. -/
def listSetPad (l : List Bool) (i : Nat) (v : Bool) : List Bool :=
  (l ++ List.replicate (i + 1 - l.length) false).set i v

/-! ## DB — `game-context.tsx` over the `lib/database.ts` adapter

The client operates on `DBRoom`/`DBPlayer` rows.  The in-memory adapter's
`updateRoom`/`updatePlayer` spread the update over the stored row, so a field
present in the update with value `undefined` clears the stored value
(modelled: `Option` set to `none`); absent fields are untouched.  Player rows
live in a separate table, so room updates never touch players and vice versa. -/

namespace DB

/-- `DBRoom` of `lib/database.ts` (game fields). -/
structure Room where
  code : String
  words : List String
  key_map : List CardType
  revealed : List Bool
  turn_team : Team
  turn_status : TurnStatus
  game_status : GameStatus
  hint_word : Option String
  hint_number : Option Nat
  guesses_left : Nat
  winner_team : Option Team
  version : Nat
deriving DecidableEq, Repr

/-- `DBPlayer` of `lib/database.ts`. -/
structure DbPlayer where
  id : String
  room_code : String
  name : String
  team : Option Team
  role : Role
  is_active : Bool
deriving DecidableEq, Repr

/-- `room.key_map.filter((t) => t === c).length` — the total number of cards
of a colour. -/
def totalCount (keyMap : List CardType) (c : CardType) : Nat :=
  keyMap.countP (fun t => t == c)

/-- The `revealedRed`/`revealedBlue` loop of `revealCard`: how many cards of a
colour are revealed under the given flags. -/
def revealedCount (keyMap : List CardType) (revealed : List Bool) (c : CardType) : Nat :=
  keyMap.enum.countP fun ki => ki.2 == c && revealed.getD ki.1 false

/-- Mutable locals of `revealCard` in `game-context.tsx`. -/
structure RevealVars where
  turnTeam : Team
  turnStatus : TurnStatus
  guessesLeft : Nat
  gameStatus : GameStatus
  winner : Option Team
  shouldEndTurn : Bool
deriving DecidableEq, Repr

/-- `revealCard` of `game-context.tsx`, for an already-parsed card index
(`parseInt(cardId.split('-')[1])`; the claims use well-formed `card-N` ids).
Mirrors the source: mark revealed; assassin ends the game for the other team;
neutral or wrong-colour cards end the turn; a correct guess decrements
`guessesLeft` (guarded `> 0`) and ends the turn at zero; then the
all-cards-revealed win check; then the turn switch if no winner. -/
def revealCard (room : Room) (index : Nat) : Room :=
  if room.revealed.getD index false then room
  else
    let newRevealed := listSetPad room.revealed index true
    let cardType := room.key_map[index]?
    let v0 : RevealVars :=
      { turnTeam := room.turn_team
        turnStatus := room.turn_status
        guessesLeft := room.guesses_left
        gameStatus := room.game_status
        winner := room.winner_team
        shouldEndTurn := false }
    let v1 : RevealVars :=
      if cardType = some .assassin then
        { v0 with gameStatus := .ENDED, winner := some room.turn_team.other }
      else if cardType = some .neutral then
        { v0 with shouldEndTurn := true }
      else if cardType ≠ some room.turn_team.cardType then
        { v0 with shouldEndTurn := true }
      else
        let gl := if v0.guessesLeft > 0 then v0.guessesLeft - 1 else v0.guessesLeft
        { v0 with guessesLeft := gl, shouldEndTurn := gl = 0 }
    let totalRed := totalCount room.key_map .red
    let totalBlue := totalCount room.key_map .blue
    let revealedRed := revealedCount room.key_map newRevealed .red
    let revealedBlue := revealedCount room.key_map newRevealed .blue
    let v2 : RevealVars :=
      if v1.gameStatus ≠ .ENDED then
        if revealedRed = totalRed then { v1 with gameStatus := .ENDED, winner := some .red }
        else if revealedBlue = totalBlue then
          { v1 with gameStatus := .ENDED, winner := some .blue }
        else v1
      else v1
    let v3 : RevealVars :=
      if v2.shouldEndTurn ∧ v2.gameStatus ≠ .ENDED then
        { v2 with turnTeam := v2.turnTeam.other, turnStatus := .WAITING_HINT, guessesLeft := 0 }
      else v2
    { room with
      revealed := newRevealed
      turn_team := v3.turnTeam
      turn_status := v3.turnStatus
      guesses_left := v3.guessesLeft
      game_status := v3.gameStatus
      winner_team := v3.winner }

/-- `sendHint` of `game-context.tsx`: an unconditional room update, no
spymaster/turn checks, no version bump. -/
def sendHint (room : Room) (word : String) (number : Nat) : Room :=
  { room with
    hint_word := some word
    hint_number := some number
    turn_status := .GUESSING
    guesses_left := number + 1 }

/-- `endTurn` of `game-context.tsx`. -/
def endTurn (room : Room) : Room :=
  { room with
    turn_team := room.turn_team.other
    turn_status := .WAITING_HINT
    guesses_left := 0
    hint_word := none
    hint_number := none }

/-- `resetGame` of `game-context.tsx` for a freshly generated board
(`words`/`keyMap` from `generateBoard`, `startingTeam` its coin flip).
`(roomState?.version || 0) + 1` equals `version + 1` in the sequential model
(also at `version = 0`, where `0 || 0` is `0`). -/
def resetGame (room : Room) (words : List String) (keyMap : List CardType)
    (startingTeam : Team) : Room :=
  { room with
    words := words
    key_map := keyMap
    revealed := List.replicate 25 false
    turn_team := startingTeam
    turn_status := .WAITING_HINT
    game_status := .PLAYING
    winner_team := none
    hint_word := none
    hint_number := none
    guesses_left := 0
    version := room.version + 1 }

/-- `selectTeam` of `game-context.tsx`: `db.updatePlayer(playerId, { team, role: 'guesser' })`. -/
def selectTeam (players : List DbPlayer) (playerId : String) (team : Team) :
    List DbPlayer :=
  updateFirst (fun p => p.id == playerId)
    (fun p => { p with team := some team, role := .guesser }) players

/-- The snapshot's derived red spymaster id:
`playersData.find((p) => p.team === 'red' && p.role === 'spymaster')?.id || null`
over the active players of the room. -/
def redSpymasterId (players : List DbPlayer) : Option String :=
  ((players.filter (·.is_active)).find?
    (fun p => p.team == some Team.red && p.role == Role.spymaster)).map (·.id)

def blueSpymasterId (players : List DbPlayer) : Option String :=
  ((players.filter (·.is_active)).find?
    (fun p => p.team == some Team.blue && p.role == Role.spymaster)).map (·.id)

/-- `setRole` of `game-context.tsx`: requesting `spymaster` while another
player holds the team's derived slot throws `"Already has a spymaster"`
(rejection); otherwise `db.updatePlayer(playerId, { role })`. -/
def setRole (players : List DbPlayer) (playerId : String) (role : Role) :
    Except String (List DbPlayer) :=
  let doUpdate := updateFirst (fun p => p.id == playerId)
    (fun p => { p with role := role }) players
  if role = .spymaster then
    let player := (players.filter (·.is_active)).find? (fun p => p.id == playerId)
    let currentSpymasterId :=
      match player with
      | some p => if p.team = some .red then redSpymasterId players else blueSpymasterId players
      | none => blueSpymasterId players
    match currentSpymasterId with
    | some sid => if sid ≠ playerId then .error "Already has a spymaster" else .ok doUpdate
    | none => .ok doUpdate
  else .ok doUpdate

/-- The 9/8/7/1 key list of `generateBoard` (starting team gets 9). -/
def generateBoardTypes (startingTeam : Team) : List CardType :=
  List.replicate 9 startingTeam.cardType ++
    List.replicate 8 startingTeam.other.cardType ++
    List.replicate 7 .neutral ++ List.replicate 1 .assassin

/-- One card of `generateBoard`: `{ id: `card-${index}`, word,
type: shuffledTypes[index], revealed: false, revealedByTeam: null }`. -/
def boardCard (shuffledTypes : List CardType) (iw : Nat × String) : RS.Card :=
  { id := "card-" ++ toString iw.1
    word := iw.2
    type := shuffledTypes.getD iw.1 .neutral
    revealed := false
    revealedByTeam := none }

/-- `generateBoard` of `game-context.tsx`.  Both of its shuffles use
`array.sort(() => 0.5 - Math.random())`, whose result is an
implementation-defined reordering of the input; the reordered word pool and
type list are therefore parameters, and theorems hypothesize they are
permutations of the pool and of `generateBoardTypes startingTeam`. -/
def generateBoard (shuffledWords : List String) (shuffledTypes : List CardType) :
    List RS.Card :=
  (shuffledWords.take 25).enum.map (boardCard shuffledTypes)

end DB

/-! ## SB — the supabase client (`src/unnamed/part_012`)

Row enums `RED/BLUE/NEUTRAL/ASSASSIN`, `SPYMASTER/GUESSER` are in bijection
with the client types via `toTeam`/`toDbTeam`/`toRole`/`toCardType`, so the
rows are modelled directly over `Team`/`CardType`/`Role`.  The client state
`roomState` used by the guards is the snapshot `dbToRoomState` of the current
row (sequential single-writer semantics). -/

namespace SB

/-- `DbRoomRow` of part_012 (game fields). -/
structure Room where
  code : String
  game_status : GameStatus
  turn_team : Team
  turn_status : TurnStatus
  hint_word : Option String
  hint_number : Option Nat
  guesses_left : Nat
  words : List String
  key_map : List CardType
  revealed : List Bool
  version : Nat
deriving DecidableEq, Repr

/-- `computeCounts`: unrevealed red/blue counts and whether the assassin is
revealed. -/
def computeCounts (keyMap : List CardType) (revealed : List Bool) :
    Nat × Nat × Bool :=
  let redLeft := keyMap.enum.countP fun ki =>
    !(revealed.getD ki.1 false) && ki.2 == CardType.red
  let blueLeft := keyMap.enum.countP fun ki =>
    !(revealed.getD ki.1 false) && ki.2 == CardType.blue
  let assassinRevealed := keyMap.enum.any fun ki =>
    ki.2 == CardType.assassin && revealed.getD ki.1 false
  (redLeft, blueLeft, assassinRevealed)

/-- The derived `winner` of `dbToRoomState`. -/
def winner (room : Room) : Option Winner :=
  if room.game_status = .ENDED then
    let c := computeCounts room.key_map room.revealed
    if c.1 = 0 then some .red
    else if c.2.1 = 0 then some .blue
    else if c.2.2 then some .assassinated
    else none
  else none

/-- The card-id regex `/^card-(\d+)$/` plus `Number(...)`:
a `card-` prefix followed by a non-empty digit string. -/
def parseCardId (s : String) : Option Nat :=
  if s.startsWith "card-" then (s.drop 5).toNat? else none

/-- Mutable locals of `revealCard` in part_012 (the `next*` variables). -/
structure NextVars where
  turnTeam : Team
  turnStatus : TurnStatus
  hintWord : Option String
  hintNumber : Option Nat
  guessesLeft : Nat
deriving DecidableEq, Repr

/-- `endTurnNow()` of part_012's `revealCard`. -/
def endTurnNow (v : NextVars) : NextVars :=
  { turnTeam := v.turnTeam.other
    turnStatus := .WAITING_HINT
    hintWord := none
    hintNumber := none
    guessesLeft := 0 }

/-- `revealCard` of part_012.  `meTeam`/`meRole` are the calling player's
snapshot fields (a `null` team throws `"Room not ready"` before any of the
modelled silent guards, so the team is taken non-null here).  All silent
no-op paths return the room unchanged (no write happens). -/
def revealCard (room : Room) (meTeam : Team) (meRole : Role) (cardId : String) :
    Room :=
  if (winner room).isSome then room
  else if room.turn_status ≠ .GUESSING then room
  else if meRole ≠ .guesser then room
  else if meTeam ≠ room.turn_team then room
  else
    match parseCardId cardId with
    | none => room
    | some index =>
      if room.revealed.getD index false then room
      else
        let nextRevealed := listSetPad room.revealed index true
        let cardType := room.key_map[index]?
        let counts := computeCounts room.key_map nextRevealed
        let hitAssassin := cardType = some CardType.assassin
        let v0 : NextVars :=
          { turnTeam := room.turn_team
            turnStatus := room.turn_status
            hintWord := room.hint_word
            hintNumber := room.hint_number
            guessesLeft := room.guesses_left }
        let stateAndVars : GameStatus × NextVars :=
          if hitAssassin then (.ENDED, endTurnNow v0)
          else if cardType = some CardType.neutral then (room.game_status, endTurnNow v0)
          else
            let guessedColor : Team := if cardType = some CardType.red then .red else .blue
            if guessedColor ≠ meTeam then (room.game_status, endTurnNow v0)
            else
              let gl := v0.guessesLeft - 1
              if gl = 0 then (room.game_status, endTurnNow { v0 with guessesLeft := gl })
              else (room.game_status, { v0 with guessesLeft := gl })
        let nextGameStatus :=
          if counts.1 = 0 ∨ counts.2.1 = 0 then GameStatus.ENDED else stateAndVars.1
        { room with
          revealed := nextRevealed
          game_status := nextGameStatus
          turn_team := stateAndVars.2.turnTeam
          turn_status := stateAndVars.2.turnStatus
          hint_word := stateAndVars.2.hintWord
          hint_number := stateAndVars.2.hintNumber
          guesses_left := stateAndVars.2.guessesLeft
          version := room.version + 1 }

/-- `sendHint` of part_012: validation throws, success bumps `version`. -/
def sendHint (room : Room) (meTeam : Team) (meRole : Role) (word : String)
    (number : Nat) : Except String Room :=
  if jsTrim word = "" then .error "Hint word is required"
  else if meRole ≠ .spymaster then .error "Only the Spymaster can send hints"
  else if room.turn_team ≠ meTeam then .error "It is not your team's turn"
  else if room.turn_status ≠ .WAITING_HINT then .error "A hint has already been given"
  else
    .ok { room with
      game_status := .PLAYING
      turn_status := .GUESSING
      hint_word := some (jsTrim word)
      hint_number := some number
      guesses_left := number + 1
      version := room.version + 1 }

/-- `endTurn` of part_012. -/
def endTurn (room : Room) : Room :=
  { room with
    turn_team := room.turn_team.other
    turn_status := .WAITING_HINT
    hint_word := none
    hint_number := none
    guesses_left := 0
    version := room.version + 1 }

/-- `createKeyMap` of part_012 (`shuffle` is the same Fisher-Yates as
`shuffleArray`). -/
def createKeyMap (startingTeam : Team) (rand : List Nat) : List CardType :=
  let reds := if startingTeam = Team.red then 9 else 8
  let blues := if startingTeam = Team.red then 8 else 9
  let keys : List CardType := List.replicate reds .red ++ List.replicate blues .blue ++
    List.replicate 7 .neutral ++ List.replicate 1 .assassin
  shuffleArray rand keys

/-- `resetGame` of part_012: starting team fixed `RED`, fresh board, lobby
status, version bump. -/
def resetGame (room : Room) (pool : List String) (rand1 rand2 : List Nat) : Room :=
  { room with
    game_status := .LOBBY
    turn_team := .red
    turn_status := .WAITING_HINT
    hint_word := none
    hint_number := none
    guesses_left := 0
    words := (shuffleArray rand1 pool).take 25
    key_map := createKeyMap .red rand2
    revealed := List.replicate 25 false
    version := room.version + 1 }

end SB

/-! ## Lemmas about first-match updates -/

section UpdateFirstKey

variable {α : Type _}

theorem updateFirst_find?_eq {P : α → Bool} {f : α → α}
    (hPf : ∀ a, P (f a) = P a) (l : List α) :
    (updateFirst P f l).find? P = (l.find? P).map f := by
  induction l with
  | nil => rfl
  | cons a l ih =>
    by_cases h : P a = true
    · rw [updateFirst, if_pos h]
      rw [List.find?_cons_of_pos _ (by rw [hPf]; exact h), List.find?_cons_of_pos _ h]
      rfl
    · rw [updateFirst, if_neg h]
      rw [List.find?_cons_of_neg _ h, List.find?_cons_of_neg _ h]
      exact ih

theorem updateFirst_find?_ne {P Q : α → Bool} {f : α → α}
    (hPQ : ∀ a, P a = true → Q a = false) (hQf : ∀ a, Q (f a) = Q a) (l : List α) :
    (updateFirst P f l).find? Q = l.find? Q := by
  induction l with
  | nil => rfl
  | cons a l ih =>
    by_cases h : P a = true
    · have hQa : Q a = false := hPQ a h
      rw [updateFirst, if_pos h]
      rw [List.find?_cons_of_neg _ (by rw [hQf]; simp [hQa]),
        List.find?_cons_of_neg _ (by simp [hQa])]
    · rw [updateFirst, if_neg h]
      by_cases h2 : Q a = true
      · rw [List.find?_cons_of_pos _ h2, List.find?_cons_of_pos _ h2]
      · rw [List.find?_cons_of_neg _ h2, List.find?_cons_of_neg _ h2]
        exact ih

theorem mem_updateFirst {P : α → Bool} {f : α → α} {l : List α} {q : α}
    (h : q ∈ updateFirst P f l) :
    q ∈ l ∨ ∃ a, l.find? P = some a ∧ q = f a := by
  induction l with
  | nil => simp [updateFirst] at h
  | cons x xs ih =>
    by_cases hx : P x
    · simp only [updateFirst, hx, if_pos] at h
      rcases List.mem_cons.mp h with h | h
      · exact Or.inr ⟨x, by simp [List.find?, hx], h⟩
      · exact Or.inl (List.mem_cons_of_mem _ h)
    · simp only [updateFirst, hx, if_neg, Bool.false_eq_true, not_false_iff] at h
      rcases List.mem_cons.mp h with h | h
      · exact Or.inl (h ▸ List.mem_cons_self x xs)
      · rcases ih h with h | ⟨a, ha, hq⟩
        · exact Or.inl (List.mem_cons_of_mem _ h)
        · exact Or.inr ⟨a, by simp [List.find?, hx, ha], hq⟩

theorem mem_updateFirst_of_ne {P : α → Bool} {f : α → α} {l : List α} {q : α}
    (hq : q ∈ l) (hne : P q = false) : q ∈ updateFirst P f l := by
  induction l with
  | nil => simp at hq
  | cons a xs ih =>
    by_cases h : P a = true
    · rw [updateFirst, if_pos h]
      rcases List.mem_cons.mp hq with h' | h'
      · subst h'
        rw [h] at hne
        cases hne
      · exact List.mem_cons_of_mem _ h'
    · rw [updateFirst, if_neg h]
      rcases List.mem_cons.mp hq with h' | h'
      · exact h' ▸ List.mem_cons_self _ _
      · exact List.mem_cons_of_mem _ (ih h')

theorem updateFirst_map {β : Type _} (g : α → β) {P : α → Bool} {f : α → α}
    (hf : ∀ a, g (f a) = g a) (l : List α) :
    (updateFirst P f l).map g = l.map g := by
  induction l with
  | nil => rfl
  | cons a xs ih =>
    by_cases h : P a
    · simp [updateFirst, h, hf]
    · simp [updateFirst, h, ih]

theorem find?_of_mem_nodup (k : α → String) {l : List α} {q : α}
    (hnd : (l.map k).Nodup) (hq : q ∈ l) :
    l.find? (fun a => k a == k q) = some q := by
  induction l with
  | nil => simp at hq
  | cons a xs ih =>
    have hnd2 : k a ∉ xs.map k ∧ (xs.map k).Nodup := by simpa using hnd
    rcases List.mem_cons.mp hq with h | h
    · subst h
      exact List.find?_cons_of_pos _ (by simp)
    · by_cases hk : k a = k q
      · exfalso
        have hm : k q ∈ xs.map k := List.mem_map_of_mem k h
        rw [← hk] at hm
        exact hnd2.1 hm
      · rw [List.find?_cons_of_neg _ (by simpa using hk)]
        exact ih hnd2.2 h

theorem countP_le_one_of_key (k : α → String) {l : List α} {pred : α → Bool}
    {c : String} (hnd : (l.map k).Nodup)
    (hall : ∀ p ∈ l, pred p = true → k p = c) :
    l.countP pred ≤ 1 := by
  induction l with
  | nil => simp
  | cons a xs ih =>
    have hnd2 : k a ∉ xs.map k ∧ (xs.map k).Nodup := by simpa using hnd
    by_cases h : pred a
    · have hka : k a = c := hall a (List.mem_cons_self _ _) h
      have hzero : xs.countP pred = 0 := by
        rw [List.countP_eq_zero]
        intro p hp hpred
        have hc : k p = c := hall p (List.mem_cons_of_mem _ hp) hpred
        exact hnd2.1 (by rw [← hka] at hc; exact hc ▸ List.mem_map_of_mem k hp)
      simp [List.countP_cons, h, hzero]
    · have := ih hnd2.2 (fun p hp => hall p (List.mem_cons_of_mem _ hp))
      simpa [List.countP_cons, h] using this

end UpdateFirstKey

/-! ## Sample states used by concrete witnesses and counterexamples -/

/-- A room-store player record. -/
def mkPlayer (id name : String) (team : Option Team) (role : Role) : RS.Player :=
  { id := id, name := name, team := team, role := role, micMuted := false }

/-- A room-store card record. -/
def mkCard (id word : String) (type : CardType) (revealed : Bool) : RS.Card :=
  { id := id, word := word, type := type, revealed := revealed, revealedByTeam := none }

/-- A room-store room with the given players, slots, cards, counters and
winner; red to move, no hint. -/
def mkRoom (players : List RS.Player) (redSpy blueSpy : Option String)
    (cards : List RS.Card) (redLeft blueLeft : Int) (winner : Option Winner) :
    RS.RoomState :=
  { roomCode := "ROOM01"
    players := players
    redSpymasterId := redSpy
    blueSpymasterId := blueSpy
    cards := cards
    currentTeam := .red
    redCardsLeft := redLeft
    blueCardsLeft := blueLeft
    winner := winner
    gameStarted := true
    currentHint := none
    hintHistory := [] }

/-! ## C10 -/

/-- C10: `joinRoom` with a `playerId` already present in the room updates the
existing record in place: the name becomes the trimmed supplied name, team,
role (and mic flag) are preserved, the player count is unchanged, and every
other player record is untouched. -/
theorem c10_joinRoom_reconnect (room : RS.RoomState) (playerId playerName : String)
    (p : RS.Player)
    (hfind : room.players.find? (fun q => q.id == playerId) = some p) :
    (RS.joinRoom room playerId playerName).1.players.length = room.players.length ∧
    (RS.joinRoom room playerId playerName).2 = { p with name := jsTrim playerName } ∧
    (RS.joinRoom room playerId playerName).1.players.find? (fun q => q.id == playerId)
      = some { p with name := jsTrim playerName } ∧
    ∀ q ∈ room.players, q.id ≠ playerId →
      q ∈ (RS.joinRoom room playerId playerName).1.players := by
  unfold RS.joinRoom
  rw [hfind]
  dsimp only
  refine ⟨updateFirst_length _ _ _, rfl, ?_, ?_⟩
  · rw [@updateFirst_find?_eq RS.Player (fun q => q.id == playerId)
      (fun q => { q with name := jsTrim playerName }) (fun a => rfl) room.players, hfind]
    rfl
  · intro q hq hne
    exact mem_updateFirst_of_ne hq (by simpa using hne)

/-- The concrete reconnect room of the C10 witness. -/
def c10room : RS.RoomState :=
  mkRoom [mkPlayer "p1" "Ayan" (some .red) .spymaster,
    mkPlayer "p2" "Hodan" (some .blue) .guesser] (some "p1") none [] 9 8 none

def c10p : RS.Player := mkPlayer "p1" "Ayan" (some .red) .spymaster

/-- C10 witness: a concrete reconnect. -/
theorem c10_witness :
    (c10room.players.find? (fun q => q.id == "p1") = some c10p) ∧
    ((RS.joinRoom c10room "p1" "  Ayaan ").1.players.length = c10room.players.length ∧
    (RS.joinRoom c10room "p1" "  Ayaan ").2 = { c10p with name := jsTrim "  Ayaan " } ∧
    (RS.joinRoom c10room "p1" "  Ayaan ").1.players.find? (fun q => q.id == "p1")
      = some { c10p with name := jsTrim "  Ayaan " } ∧
    ∀ q ∈ c10room.players, q.id ≠ "p1" →
      q ∈ (RS.joinRoom c10room "p1" "  Ayaan ").1.players) :=
  ⟨by decide, c10_joinRoom_reconnect c10room "p1" "  Ayaan " c10p (by decide)⟩

/-! ## C2 -/

theorem Team.cardType_ne_assassin (t : Team) : t.cardType ≠ .assassin := by
  cases t <;> simp [Team.cardType]

theorem Team.cardType_ne_neutral (t : Team) : t.cardType ≠ .neutral := by
  cases t <;> simp [Team.cardType]

/-- C2: in `game-context.tsx`, (i) a hint with number 2 from a `WAITING_HINT`
turn yields `guessesLeft = 3` and status `GUESSING`; (ii) revealing a card of
the guessing team's own colour, with at least 2 guesses left and the colour
not completed, decrements `guessesLeft` by exactly 1 and leaves turn team,
status, game status and winner unchanged; (iii) revealing a neutral card ends
the turn immediately (team flipped, `WAITING_HINT`, `guessesLeft = 0`)
regardless of the remaining guess budget. -/
theorem c2_hint_guess_streak :
    (∀ (room : DB.Room) (word : String), room.turn_status = .WAITING_HINT →
      (DB.sendHint room word 2).guesses_left = 3 ∧
      (DB.sendHint room word 2).turn_status = .GUESSING) ∧
    (∀ (room : DB.Room) (index : Nat),
      room.key_map[index]? = some room.turn_team.cardType →
      room.revealed.getD index false = false →
      2 ≤ room.guesses_left →
      DB.revealedCount room.key_map (listSetPad room.revealed index true) .red ≠
        DB.totalCount room.key_map .red →
      DB.revealedCount room.key_map (listSetPad room.revealed index true) .blue ≠
        DB.totalCount room.key_map .blue →
      (DB.revealCard room index).guesses_left = room.guesses_left - 1 ∧
      (DB.revealCard room index).turn_team = room.turn_team ∧
      (DB.revealCard room index).turn_status = room.turn_status ∧
      (DB.revealCard room index).game_status = room.game_status ∧
      (DB.revealCard room index).winner_team = room.winner_team) ∧
    (∀ (room : DB.Room) (index : Nat),
      room.key_map[index]? = some .neutral →
      room.revealed.getD index false = false →
      room.game_status ≠ .ENDED →
      DB.revealedCount room.key_map (listSetPad room.revealed index true) .red ≠
        DB.totalCount room.key_map .red →
      DB.revealedCount room.key_map (listSetPad room.revealed index true) .blue ≠
        DB.totalCount room.key_map .blue →
      (DB.revealCard room index).turn_team = room.turn_team.other ∧
      (DB.revealCard room index).turn_status = .WAITING_HINT ∧
      (DB.revealCard room index).guesses_left = 0 ∧
      (DB.revealCard room index).game_status = room.game_status ∧
      (DB.revealCard room index).winner_team = room.winner_team) := by
  refine ⟨?_, ?_, ?_⟩
  · intro room word _
    exact ⟨rfl, rfl⟩
  · intro room index h1 h2 h3 h4 h5
    have hgt : room.guesses_left > 0 := lt_of_lt_of_le (by norm_num) h3
    have hne : room.guesses_left - 1 ≠ 0 := by omega
    unfold DB.revealCard
    rw [h2]
    simp only [Bool.false_eq_true, if_false, h1]
    have hA : some room.turn_team.cardType ≠ some CardType.assassin := by
      simp [Team.cardType_ne_assassin]
    have hN : some room.turn_team.cardType ≠ some CardType.neutral := by
      simp [Team.cardType_ne_neutral]
    simp only [hA, if_false, hN, ne_eq, not_true_eq_false, if_true, if_false,
      hgt, if_pos, hne, h4, h5]
    by_cases hg : room.game_status = GameStatus.ENDED <;>
      simp [hg, hne, h4, h5]
  · intro room index h1 h2 h6 h4 h5
    unfold DB.revealCard
    rw [h2]
    simp only [Bool.false_eq_true, if_false, h1]
    have hA : some CardType.neutral ≠ some CardType.assassin := by simp
    simp only [hA, if_false, if_true]
    simp [h6, h4, h5]

/-- Key map of the C2 witness board: indices 0-8 red, 9-16 blue, 17-23
neutral, 24 assassin. -/
def c2keyMap : List CardType :=
  List.replicate 9 .red ++ List.replicate 8 .blue ++
    List.replicate 7 .neutral ++ [.assassin]

def c2room0 : DB.Room :=
  { code := "ROOM01"
    words := List.replicate 25 "w"
    key_map := c2keyMap
    revealed := List.replicate 25 false
    turn_team := .red
    turn_status := .WAITING_HINT
    game_status := .PLAYING
    hint_word := none
    hint_number := none
    guesses_left := 0
    winner_team := none
    version := 1 }

def c2room1 : DB.Room := DB.sendHint c2room0 "ocean" 2

def c2room2 : DB.Room := DB.revealCard c2room1 0

def c2room3 : DB.Room := DB.revealCard c2room2 1

/-- C2 witness: the spec's scenario, hint `("ocean", 2)` then two correct red
reveals then a neutral reveal. -/
theorem c2_witness :
    (c2room0.turn_status = .WAITING_HINT ∧
      c2room1.guesses_left = 3 ∧ c2room1.turn_status = .GUESSING) ∧
    (c2room2.guesses_left = c2room1.guesses_left - 1 ∧
      c2room2.turn_team = c2room1.turn_team ∧
      c2room2.turn_status = c2room1.turn_status ∧
      c2room2.game_status = c2room1.game_status ∧
      c2room2.winner_team = c2room1.winner_team) ∧
    (c2room3.guesses_left = c2room2.guesses_left - 1 ∧
      c2room3.turn_team = c2room2.turn_team ∧
      c2room3.turn_status = c2room2.turn_status ∧
      c2room3.game_status = c2room2.game_status ∧
      c2room3.winner_team = c2room2.winner_team) ∧
    (c2room3.guesses_left = 1 ∧
      (DB.revealCard c2room3 17).turn_team = c2room3.turn_team.other ∧
      (DB.revealCard c2room3 17).turn_status = .WAITING_HINT ∧
      (DB.revealCard c2room3 17).guesses_left = 0 ∧
      (DB.revealCard c2room3 17).game_status = c2room3.game_status ∧
      (DB.revealCard c2room3 17).winner_team = c2room3.winner_team) := by
  refine ⟨⟨by decide, ?_⟩, ?_, ?_, ⟨by decide, ?_⟩⟩
  · exact c2_hint_guess_streak.1 c2room0 "ocean" (by decide)
  · exact c2_hint_guess_streak.2.1 c2room1 0 (by decide) (by decide) (by decide)
      (by decide) (by decide)
  · exact c2_hint_guess_streak.2.1 c2room2 1 (by decide) (by decide) (by decide)
      (by decide) (by decide)
  · exact c2_hint_guess_streak.2.2 c2room3 17 (by decide) (by decide) (by decide)
      (by decide) (by decide)

/-! ## C9 -/

theorem enum_map_getD {β : Type _} (l : List α) (tys : List β) (d : β)
    (h : l.length = tys.length) :
    (l.enum.map fun iw => tys.getD iw.1 d) = tys := by
  apply List.ext_getElem
  · simp [h]
  · intro i h1 h2
    have hi : i < l.length := by simpa using h1
    have hit : i < tys.length := by omega
    simp only [List.getElem_map, List.getElem_enum]
    exact List.getD_eq_getElem tys d hit

/-- Projecting a field built from `enum.map` back to the underlying list. -/
theorem enum_map_word (l : List α) {β : Type _} (g : Nat × α → β) (w : β → α)
    (hw : ∀ iw, w (g iw) = iw.2) : (l.enum.map g).map w = l := by
  rw [List.map_map]
  have hfun : (w ∘ g) = fun iw : Nat × α => iw.2 := funext fun iw => hw iw
  rw [hfun]
  exact List.enum_map_snd l

theorem enum_map_proj (l : List α) {β γ : Type _} (g : Nat × α → β) (w : β → γ)
    (f : Nat × α → γ) (hw : ∀ iw, w (g iw) = f iw) :
    (l.enum.map g).map w = l.enum.map f := by
  rw [List.map_map]
  exact List.map_congr_left fun iw _ => hw iw

theorem createNewGameState_cards (pool : List String) (rand1 rand2 : List Nat)
    (ts : Nat) :
    (RS.createNewGameState pool rand1 rand2 ts).cards =
      ((shuffleArray rand1 pool).take 25).enum.map
        (RS.mkDeckCard ts (shuffleArray rand2 RS.baseTypes)) := rfl

theorem deckCards_word_map (ws : List String) (ts : Nat) (sts : List CardType) :
    (ws.enum.map (RS.mkDeckCard ts sts)).map (fun c => c.word) = ws :=
  enum_map_word ws (RS.mkDeckCard ts sts) (fun c => c.word) (fun _ => rfl)

theorem deckCards_type_map (ws : List String) (ts : Nat) (sts : List CardType)
    (h : ws.length = sts.length) :
    (ws.enum.map (RS.mkDeckCard ts sts)).map (fun c => c.type) = sts := by
  rw [enum_map_proj ws (RS.mkDeckCard ts sts) (fun c => c.type)
    (fun iw => sts.getD iw.1 CardType.neutral) (fun _ => rfl)]
  exact enum_map_getD ws sts CardType.neutral h

theorem boardCards_word_map (ws : List String) (sts : List CardType) :
    (ws.enum.map (DB.boardCard sts)).map (fun c => c.word) = ws :=
  enum_map_word ws (DB.boardCard sts) (fun c => c.word) (fun _ => rfl)

theorem boardCards_type_map (ws : List String) (sts : List CardType)
    (h : ws.length = sts.length) :
    (ws.enum.map (DB.boardCard sts)).map (fun c => c.type) = sts := by
  rw [enum_map_proj ws (DB.boardCard sts) (fun c => c.type)
    (fun iw => sts.getD iw.1 CardType.neutral) (fun _ => rfl)]
  exact enum_map_getD ws sts CardType.neutral h

/-- Counting a card type via the type projection. -/
theorem countP_type_eq (cards : List RS.Card) (ty : CardType) :
    cards.countP (fun c => c.type == ty) =
      (cards.map (fun c => c.type)).countP (fun t => t == ty) := by
  rw [List.countP_map]
  rfl

/-- C9: deck integrity.  The backend `createNewGameState` (for any shuffle
draws, any timestamp and a word pool of at least 25 distinct entries —
`SOMALI_WORDS` is not among the provided sources and is modelled per the spec
as a list of ≥ 25 distinct words) produces exactly 25 cards with the 9/8/7/1
red/blue/neutral/assassin split and 25 distinct words drawn from the pool;
and `generateBoard` of `game-context.tsx` (for any reorderings its
`sort`-shuffles produce) yields 25 cards split 9 for the starting team, 8 for
the other, 7 neutral, 1 assassin, again with distinct pool words. -/
theorem c9_deck_integrity (pool : List String) (rand1 rand2 : List Nat) (ts : Nat)
    (hnd : pool.Nodup) (hlen : 25 ≤ pool.length) :
    ((RS.createNewGameState pool rand1 rand2 ts).cards.length = 25 ∧
      (RS.createNewGameState pool rand1 rand2 ts).cards.countP
        (fun c => c.type == CardType.assassin) = 1 ∧
      (RS.createNewGameState pool rand1 rand2 ts).cards.countP
        (fun c => c.type == CardType.red) = 9 ∧
      (RS.createNewGameState pool rand1 rand2 ts).cards.countP
        (fun c => c.type == CardType.blue) = 8 ∧
      (RS.createNewGameState pool rand1 rand2 ts).cards.countP
        (fun c => c.type == CardType.neutral) = 7 ∧
      ((RS.createNewGameState pool rand1 rand2 ts).cards.map (fun c => c.word)).Nodup ∧
      ∀ w ∈ (RS.createNewGameState pool rand1 rand2 ts).cards.map (fun c => c.word),
        w ∈ pool) ∧
    ∀ (startingTeam : Team) (sw : List String) (st : List CardType),
      sw.Perm pool → st.Perm (DB.generateBoardTypes startingTeam) →
      (DB.generateBoard sw st).length = 25 ∧
      (DB.generateBoard sw st).countP (fun c => c.type == CardType.assassin) = 1 ∧
      (DB.generateBoard sw st).countP (fun c => c.type == startingTeam.cardType) = 9 ∧
      (DB.generateBoard sw st).countP
        (fun c => c.type == startingTeam.other.cardType) = 8 ∧
      (DB.generateBoard sw st).countP (fun c => c.type == CardType.neutral) = 7 ∧
      ((DB.generateBoard sw st).map (fun c => c.word)).Nodup ∧
      ∀ w ∈ (DB.generateBoard sw st).map (fun c => c.word), w ∈ pool := by
  constructor
  · have hswlen : ((shuffleArray rand1 pool).take 25).length = 25 := by
      rw [List.length_take, shuffleArray_length]
      omega
    have htylen : (shuffleArray rand2 RS.baseTypes).length = 25 := by
      rw [shuffleArray_length]
      rfl
    have hwords :
        (RS.createNewGameState pool rand1 rand2 ts).cards.map (fun c => c.word) =
          (shuffleArray rand1 pool).take 25 := by
      rw [createNewGameState_cards]
      exact deckCards_word_map _ ts _
    have htypemap :
        (RS.createNewGameState pool rand1 rand2 ts).cards.map (fun c => c.type) =
          shuffleArray rand2 RS.baseTypes := by
      rw [createNewGameState_cards]
      exact deckCards_type_map _ ts _ (by omega)
    have hcount : ∀ ty : CardType,
        (RS.createNewGameState pool rand1 rand2 ts).cards.countP (fun c => c.type == ty) =
          RS.baseTypes.countP (fun t => t == ty) := by
      intro ty
      rw [countP_type_eq, htypemap]
      exact (shuffleArray_perm rand2 RS.baseTypes).countP_eq _
    have hlencards : (RS.createNewGameState pool rand1 rand2 ts).cards.length = 25 := by
      have hl := congrArg List.length hwords
      simpa [hswlen] using hl
    have hselnodup : ((shuffleArray rand1 pool).take 25).Nodup :=
      ((shuffleArray_perm rand1 pool).nodup_iff.mpr hnd).sublist (List.take_sublist _ _)
    have hselmem : ∀ w ∈ (shuffleArray rand1 pool).take 25, w ∈ pool := fun w hw =>
      (shuffleArray_perm rand1 pool).mem_iff.mp (List.take_subset _ _ hw)
    refine ⟨hlencards, ?_, ?_, ?_, ?_, ?_, ?_⟩
    · rw [hcount]; rfl
    · rw [hcount]; rfl
    · rw [hcount]; rfl
    · rw [hcount]; rfl
    · rw [hwords]; exact hselnodup
    · rw [hwords]; exact hselmem
  · intro startingTeam sw st hsw hst
    have hswlen : (sw.take 25).length = 25 := by
      rw [List.length_take, hsw.length_eq]
      omega
    have hstlen : st.length = 25 := by
      rw [hst.length_eq]
      cases startingTeam <;> rfl
    have hwords : (DB.generateBoard sw st).map (fun c => c.word) = sw.take 25 :=
      boardCards_word_map _ _
    have htypemap : (DB.generateBoard sw st).map (fun c => c.type) = st :=
      boardCards_type_map _ _ (by omega)
    have hcount : ∀ ty : CardType,
        (DB.generateBoard sw st).countP (fun c => c.type == ty) =
          (DB.generateBoardTypes startingTeam).countP (fun t => t == ty) := by
      intro ty
      rw [countP_type_eq, htypemap]
      exact hst.countP_eq _
    have hlencards : (DB.generateBoard sw st).length = 25 := by
      have hl := congrArg List.length hwords
      simpa [hswlen] using hl
    refine ⟨hlencards, ?_, ?_, ?_, ?_, ?_, ?_⟩
    · rw [hcount]; cases startingTeam <;> rfl
    · rw [hcount]; cases startingTeam <;> rfl
    · rw [hcount]; cases startingTeam <;> rfl
    · rw [hcount]; cases startingTeam <;> rfl
    · rw [hwords]
      exact (hsw.nodup_iff.mpr hnd).sublist (List.take_sublist _ _)
    · rw [hwords]
      intro w hw
      exact hsw.mem_iff.mp (List.take_subset _ _ hw)

/-- 25 distinct pool words for the C9 witness. -/
def c9pool : List String := (List.range 25).map (fun i => "w" ++ toString i)

/-- C9 witness: the deck integrity conclusions at a concrete 25-word pool,
with empty shuffle-draw lists and timestamp 0, and `generateBoard` at the
identity reorderings. -/
theorem c9_witness :
    (c9pool.Nodup ∧ 25 ≤ c9pool.length) ∧
    ((RS.createNewGameState c9pool [] [] 0).cards.length = 25 ∧
      (RS.createNewGameState c9pool [] [] 0).cards.countP
        (fun c => c.type == CardType.assassin) = 1 ∧
      (RS.createNewGameState c9pool [] [] 0).cards.countP
        (fun c => c.type == CardType.red) = 9 ∧
      (RS.createNewGameState c9pool [] [] 0).cards.countP
        (fun c => c.type == CardType.blue) = 8 ∧
      (RS.createNewGameState c9pool [] [] 0).cards.countP
        (fun c => c.type == CardType.neutral) = 7 ∧
      ((RS.createNewGameState c9pool [] [] 0).cards.map (fun c => c.word)).Nodup ∧
      ∀ w ∈ (RS.createNewGameState c9pool [] [] 0).cards.map (fun c => c.word),
        w ∈ c9pool) ∧
    ((DB.generateBoard c9pool (DB.generateBoardTypes .red)).length = 25 ∧
      (DB.generateBoard c9pool (DB.generateBoardTypes .red)).countP
        (fun c => c.type == CardType.assassin) = 1 ∧
      (DB.generateBoard c9pool (DB.generateBoardTypes .red)).countP
        (fun c => c.type == Team.red.cardType) = 9 ∧
      (DB.generateBoard c9pool (DB.generateBoardTypes .red)).countP
        (fun c => c.type == Team.red.other.cardType) = 8 ∧
      (DB.generateBoard c9pool (DB.generateBoardTypes .red)).countP
        (fun c => c.type == CardType.neutral) = 7 ∧
      ((DB.generateBoard c9pool (DB.generateBoardTypes .red)).map
        (fun c => c.word)).Nodup ∧
      ∀ w ∈ (DB.generateBoard c9pool (DB.generateBoardTypes .red)).map
        (fun c => c.word), w ∈ c9pool) :=
  ⟨⟨by decide, by decide⟩,
    (c9_deck_integrity c9pool [] [] 0 (by decide) (by decide)).1,
    (c9_deck_integrity c9pool [] [] 0 (by decide) (by decide)).2 .red c9pool
      (DB.generateBoardTypes .red) (List.Perm.refl _) (List.Perm.refl _)⟩

/-! ## C6 -/

theorem slotOf_setSlot_same (room : RS.RoomState) (t : Team) (v : Option String) :
    RS.slotOf (RS.setSlot room t v) t = v := by
  cases t <;> rfl

theorem slotOf_setSlot_other (room : RS.RoomState) (t t' : Team) (v : Option String)
    (h : t' ≠ t) : RS.slotOf (RS.setSlot room t v) t' = RS.slotOf room t' := by
  cases t <;> cases t' <;> first | rfl | exact absurd rfl h

theorem setSlot_players (room : RS.RoomState) (t : Team) (v : Option String) :
    (RS.setSlot room t v).players = room.players := by
  cases t <;> rfl

/-- The two-player table of the C6 counterexample: `A` is the active red
spymaster, `B` is an active red guesser. -/
def c6players : List DB.DbPlayer :=
  [{ id := "A", room_code := "R1", name := "A", team := some .red,
      role := .spymaster, is_active := true },
    { id := "B", room_code := "R1", name := "B", team := some .red,
      role := .guesser, is_active := true }]

/-- C6 counterexample: in `game-context.tsx`, a `setRole(spymaster)` call by a
red-team player while another player holds the red spymaster slot is rejected
with the error `"Already has a spymaster"` — not accepted as a replacement. -/
theorem c6_counterexample :
    DB.setRole c6players "B" .spymaster = .error "Already has a spymaster" := by
  rfl

/-- C6 (amended): in the backend room-store, `setRole(spymaster)` while
another player `cur` holds the caller's team slot succeeds as a replacement:
the result reports `replacedSpymaster = true`, the slot now holds the caller,
the caller's record has role `spymaster` (team unchanged), the former
holder's record (when present) is demoted to `guesser`, and the other team's
slot is untouched.  The `game-context.tsx` client instead rejects the call
(see the counterexample). -/
theorem c6_setRole_replaces (room : RS.RoomState) (playerId : String)
    (p : RS.Player) (t : Team) (cur : String)
    (hfind : RS.findPlayer room playerId = some p)
    (hteam : p.team = some t)
    (hslot : RS.slotOf room t = some cur)
    (hne : cur ≠ playerId) :
    (RS.setRole room playerId .spymaster).map (fun rb => rb.2) = .ok true ∧
    (RS.setRole room playerId .spymaster).map (fun rb => RS.slotOf rb.1 t)
      = .ok (some playerId) ∧
    (RS.setRole room playerId .spymaster).map
        (fun rb => rb.1.players.find? (fun q => q.id == playerId))
      = .ok (some { p with role := .spymaster }) ∧
    (∀ former, RS.findPlayer room cur = some former →
      (RS.setRole room playerId .spymaster).map
          (fun rb => rb.1.players.find? (fun q => q.id == cur))
        = .ok (some { former with role := .guesser })) ∧
    (RS.setRole room playerId .spymaster).map (fun rb => RS.slotOf rb.1 t.other)
      = .ok (RS.slotOf room t.other) := by
  have hres : RS.setRole room playerId .spymaster =
      .ok (RS.setSlot { room with players :=
          (updateFirst (fun q => q.id == playerId) (fun q => { q with role := .spymaster })
            (updateFirst (fun q => q.id == cur) (fun q => { q with role := .guesser })
              room.players)) } t (some playerId), true) := by
    unfold RS.setRole
    rw [hfind]
    dsimp only
    rw [hteam]
    dsimp only
    rw [hslot]
    dsimp only
    simp [hne]
  rw [hres]
  have hother : t.other ≠ t := by cases t <;> simp [Team.other]
  refine ⟨rfl, ?_, ?_, ?_, ?_⟩
  · simp only [Except.map, slotOf_setSlot_same]
  · simp only [Except.map, setSlot_players]
    rw [@updateFirst_find?_eq RS.Player (fun q => q.id == playerId)
      (fun q => { q with role := .spymaster }) (fun _ => rfl)]
    rw [@updateFirst_find?_ne RS.Player (fun q => q.id == cur)
      (fun q => q.id == playerId) (fun q => { q with role := .guesser })
      (fun a ha => by
        have h1 : a.id = cur := by simpa using ha
        simpa [h1] using hne)
      (fun _ => rfl)]
    have hfind2 : room.players.find? (fun q => q.id == playerId) = some p := hfind
    rw [hfind2]
    rfl
  · intro former hformer
    simp only [Except.map, setSlot_players]
    rw [@updateFirst_find?_ne RS.Player (fun q => q.id == playerId)
      (fun q => q.id == cur) (fun q => { q with role := .spymaster })
      (fun a ha => by
        have h1 : a.id = playerId := by simpa using ha
        simpa [h1] using fun h => hne h.symm)
      (fun _ => rfl)]
    rw [@updateFirst_find?_eq RS.Player (fun q => q.id == cur)
      (fun q => { q with role := .guesser }) (fun _ => rfl)]
    have hformer2 : room.players.find? (fun q => q.id == cur) = some former := hformer
    rw [hformer2]
    rfl
  · simp only [Except.map]
    rw [slotOf_setSlot_other _ _ _ _ hother]
    cases t <;> rfl

/-- The room of the C6 witness: `A` red spymaster, `B` red guesser. -/
def c6room : RS.RoomState :=
  mkRoom [mkPlayer "A" "A" (some .red) .spymaster,
    mkPlayer "B" "B" (some .red) .guesser] (some "A") none [] 9 8 none

/-- C6 witness: `B` replaces `A` as red spymaster in the room-store. -/
theorem c6_witness :
    (RS.findPlayer c6room "B" = some (mkPlayer "B" "B" (some .red) .guesser) ∧
      RS.slotOf c6room .red = some "A") ∧
    ((RS.setRole c6room "B" .spymaster).map (fun rb => rb.2) = .ok true ∧
      (RS.setRole c6room "B" .spymaster).map (fun rb => RS.slotOf rb.1 .red)
        = .ok (some "B") ∧
      (RS.setRole c6room "B" .spymaster).map
          (fun rb => rb.1.players.find? (fun q => q.id == "B"))
        = .ok (some { mkPlayer "B" "B" (some .red) .guesser with role := .spymaster }) ∧
      (∀ former, RS.findPlayer c6room "A" = some former →
        (RS.setRole c6room "B" .spymaster).map
            (fun rb => rb.1.players.find? (fun q => q.id == "A"))
          = .ok (some { former with role := .guesser })) ∧
      (RS.setRole c6room "B" .spymaster).map (fun rb => RS.slotOf rb.1 Team.red.other)
        = .ok (RS.slotOf c6room Team.red.other)) :=
  ⟨⟨by decide, by decide⟩,
    c6_setRole_replaces c6room "B" (mkPlayer "B" "B" (some .red) .guesser) .red "A"
      (by decide) (by decide) (by decide) (by decide)⟩

/-! ## C7 -/

/-- The concrete room of the C7 counterexample. -/
def c7room : DB.Room :=
  { code := "ROOM07"
    words := []
    key_map := []
    revealed := []
    turn_team := .red
    turn_status := .WAITING_HINT
    game_status := .PLAYING
    hint_word := none
    hint_number := none
    guesses_left := 0
    winner_team := none
    version := 5 }

/-- C7 counterexample: `sendHint` of `game-context.tsx` (the claim's cited
source) mutates the room — it stores the hint and switches the status to
`GUESSING` — yet leaves `version` unchanged, so not every successful mutating
operation strictly increases `version`. -/
theorem c7_counterexample :
    (DB.sendHint c7room "ocean" 2).version = c7room.version ∧
    DB.sendHint c7room "ocean" 2 ≠ c7room := by
  exact ⟨rfl, by decide⟩

/-- C7 (amended): no operation ever decreases `version`, but only the
part_012 supabase client's room mutations (`sendHint`, `endTurn`,
`revealCard`, `resetGame`) and `resetGame` of `game-context.tsx` increment it
(by exactly 1); the other `game-context.tsx` room mutations (`sendHint`,
`revealCard`, `endTurn`) leave `version` unchanged, and the backend
room-store has no `version` field at all.  (Player-table updates — `joinRoom`,
`selectTeam`, `setRole`, `toggleMic` — never touch the room row.) -/
theorem c7_version_amended :
    (∀ (room : DB.Room) (word : String) (n : Nat),
      (DB.sendHint room word n).version = room.version) ∧
    (∀ (room : DB.Room) (i : Nat), (DB.revealCard room i).version = room.version) ∧
    (∀ room : DB.Room, (DB.endTurn room).version = room.version) ∧
    (∀ (room : DB.Room) (words : List String) (keyMap : List CardType) (st : Team),
      (DB.resetGame room words keyMap st).version = room.version + 1) ∧
    (∀ (room : SB.Room) (mt : Team) (mr : Role) (w : String) (n : Nat) (r : SB.Room),
      SB.sendHint room mt mr w n = .ok r → r.version = room.version + 1) ∧
    (∀ room : SB.Room, (SB.endTurn room).version = room.version + 1) ∧
    (∀ (room : SB.Room) (mt : Team) (mr : Role) (cid : String),
      SB.revealCard room mt mr cid = room ∨
        (SB.revealCard room mt mr cid).version = room.version + 1) ∧
    (∀ (room : SB.Room) (pool : List String) (r1 r2 : List Nat),
      (SB.resetGame room pool r1 r2).version = room.version + 1) := by
  refine ⟨fun _ _ _ => ?_, fun room i => ?_, fun _ => rfl, fun _ _ _ _ => rfl,
    fun room mt mr w n r h => ?_, fun _ => rfl, fun room mt mr cid => ?_,
    fun _ _ _ _ => rfl⟩
  · rfl
  · unfold DB.revealCard
    split
    · rfl
    · rfl
  · unfold SB.sendHint at h
    split_ifs at h
    injection h with h
    rw [← h]
  · unfold SB.revealCard
    split_ifs
    · exact Or.inl rfl
    · exact Or.inl rfl
    · exact Or.inl rfl
    · exact Or.inl rfl
    · split
      · exact Or.inl rfl
      · split
        · exact Or.inl rfl
        · exact Or.inr rfl

/-- The supabase-client room of the C7 witness. -/
def c7sbroom : SB.Room :=
  { code := "ROOM07"
    game_status := .PLAYING
    turn_team := .red
    turn_status := .WAITING_HINT
    hint_word := none
    hint_number := none
    guesses_left := 0
    words := List.replicate 25 "w"
    key_map := c2keyMap
    revealed := List.replicate 25 false
    version := 7 }

/-- The room produced by the part_012 `sendHint` in the C7 witness. -/
def c7sbroom1 : SB.Room :=
  { c7sbroom with
    game_status := .PLAYING
    turn_status := .GUESSING
    hint_word := some "badda"
    hint_number := some 2
    guesses_left := 3
    version := c7sbroom.version + 1 }

/-- C7 witness: the part_012 `sendHint` and `revealCard` bump `version` by 1
at a concrete room, and `game-context.tsx`'s `sendHint` leaves it unchanged. -/
theorem c7_witness :
    ((DB.sendHint c7room "ocean" 2).version = c7room.version) ∧
    (SB.sendHint c7sbroom .red .spymaster "badda" 2 = .ok c7sbroom1 ∧
      c7sbroom1.version = c7sbroom.version + 1) ∧
    (SB.revealCard c7sbroom .red .guesser "card-0" = c7sbroom ∨
      (SB.revealCard c7sbroom .red .guesser "card-0").version = c7sbroom.version + 1) :=
  ⟨c7_version_amended.1 c7room "ocean" 2,
    ⟨by rfl,
      c7_version_amended.2.2.2.2.1 c7sbroom .red .spymaster "badda" 2 c7sbroom1
        (by rfl)⟩,
    c7_version_amended.2.2.2.2.2.2.1 c7sbroom .red .guesser "card-0"⟩

/-! ## C1 -/

/-- The concrete room of the C1 counterexample: one red spymaster, one
unrevealed red card. -/
def c1room : RS.RoomState :=
  mkRoom [mkPlayer "s" "Sagal" (some .red) .spymaster] (some "s") none
    [mkCard "c0" "w0" .red false] 9 8 none

/-- C1 counterexample: in the backend room-store a `revealCard` call whose
caller's role is not `guesser` throws (`"Only guessers can reveal cards"`)
instead of being a silent no-op returning the unchanged room. -/
theorem c1_counterexample :
    RS.revealCard c1room "s" "c0" = .error "Only guessers can reveal cards" := by
  rfl

/-- All silent no-op paths of the part_012 `revealCard` return the room
unchanged: a set (derived) winner, a non-`GUESSING` status, a non-guesser
caller, a caller off the turn team, an unparseable card id, or an
already-revealed index. -/
theorem sb_revealCard_noop (room : SB.Room) (mt : Team) (mr : Role) (cid : String)
    (h : (SB.winner room).isSome ∨ room.turn_status ≠ .GUESSING ∨ mr ≠ .guesser ∨
      mt ≠ room.turn_team ∨ SB.parseCardId cid = none ∨
      (∃ i, SB.parseCardId cid = some i ∧ room.revealed.getD i false = true)) :
    SB.revealCard room mt mr cid = room := by
  unfold SB.revealCard
  by_cases h1 : (SB.winner room).isSome
  · rw [if_pos h1]
  · rw [if_neg h1]
    by_cases h2 : room.turn_status ≠ TurnStatus.GUESSING
    · rw [if_pos h2]
    · rw [if_neg h2]
      by_cases h3 : mr ≠ Role.guesser
      · rw [if_pos h3]
      · rw [if_neg h3]
        by_cases h4 : mt ≠ room.turn_team
        · rw [if_pos h4]
        · rw [if_neg h4]
          rcases h with h | h | h | h | h | ⟨i, hp, hrev⟩
          · exact absurd h h1
          · exact absurd h h2
          · exact absurd h h3
          · exact absurd h h4
          · rw [h]
          · rw [hp]
            dsimp only
            rw [if_pos hrev]

/-- C1 (amended): the silent-no-op contract holds in the part_012 supabase
client — a set winner, a non-`GUESSING` turn, a non-guesser caller, a caller
off the turn team, an unparseable card id, or an already-revealed card each
leave the room exactly unchanged — while in the backend room-store only the
already-revealed case is a silent no-op returning the unchanged room; a role
mismatch, a team mismatch or an unknown card id there throw errors. -/
theorem c1_reveal_preconditions :
    (∀ (room : RS.RoomState) (pid cid : String) (p : RS.Player),
      RS.findPlayer room pid = some p → p.role ≠ .guesser →
      RS.revealCard room pid cid = .error "Only guessers can reveal cards") ∧
    (∀ (room : RS.RoomState) (pid cid : String) (p : RS.Player),
      RS.findPlayer room pid = some p → p.role = .guesser →
      p.team ≠ some room.currentTeam →
      RS.revealCard room pid cid = .error "It is not your team's turn") ∧
    (∀ (room : RS.RoomState) (pid cid : String) (p : RS.Player),
      RS.findPlayer room pid = some p → p.role = .guesser →
      p.team = some room.currentTeam →
      room.cards.find? (fun c => c.id == cid) = none →
      RS.revealCard room pid cid = .error "Card not found") ∧
    (∀ (room : RS.RoomState) (pid cid : String) (p : RS.Player) (card : RS.Card),
      RS.findPlayer room pid = some p → p.role = .guesser →
      p.team = some room.currentTeam →
      room.cards.find? (fun c => c.id == cid) = some card → card.revealed = true →
      RS.revealCard room pid cid = .ok room) ∧
    (∀ (room : SB.Room) (mt : Team) (mr : Role) (cid : String),
      (SB.winner room).isSome → SB.revealCard room mt mr cid = room) ∧
    (∀ (room : SB.Room) (mt : Team) (mr : Role) (cid : String),
      room.turn_status ≠ .GUESSING → SB.revealCard room mt mr cid = room) ∧
    (∀ (room : SB.Room) (mt : Team) (mr : Role) (cid : String),
      mr ≠ .guesser → SB.revealCard room mt mr cid = room) ∧
    (∀ (room : SB.Room) (mt : Team) (mr : Role) (cid : String),
      mt ≠ room.turn_team → SB.revealCard room mt mr cid = room) ∧
    (∀ (room : SB.Room) (mt : Team) (mr : Role) (cid : String),
      SB.parseCardId cid = none → SB.revealCard room mt mr cid = room) ∧
    (∀ (room : SB.Room) (mt : Team) (mr : Role) (cid : String) (i : Nat),
      SB.parseCardId cid = some i → room.revealed.getD i false = true →
      SB.revealCard room mt mr cid = room) := by
  refine ⟨?_, ?_, ?_, ?_,
    fun room mt mr cid h => sb_revealCard_noop room mt mr cid (Or.inl h),
    fun room mt mr cid h => sb_revealCard_noop room mt mr cid (Or.inr (Or.inl h)),
    fun room mt mr cid h => sb_revealCard_noop room mt mr cid (Or.inr (Or.inr (Or.inl h))),
    fun room mt mr cid h =>
      sb_revealCard_noop room mt mr cid (Or.inr (Or.inr (Or.inr (Or.inl h)))),
    fun room mt mr cid h =>
      sb_revealCard_noop room mt mr cid (Or.inr (Or.inr (Or.inr (Or.inr (Or.inl h))))),
    fun room mt mr cid i hp hrev =>
      sb_revealCard_noop room mt mr cid
        (Or.inr (Or.inr (Or.inr (Or.inr (Or.inr ⟨i, hp, hrev⟩)))))⟩
  · intro room pid cid p hfind hrole
    unfold RS.revealCard
    rw [hfind]
    dsimp only
    rw [if_pos hrole]
  · intro room pid cid p hfind hrole hteam
    unfold RS.revealCard
    rw [hfind]
    dsimp only
    rw [if_neg (by simp [hrole]), if_pos hteam]
  · intro room pid cid p hfind hrole hteam hcard
    unfold RS.revealCard
    rw [hfind]
    dsimp only
    rw [if_neg (by simp [hrole]), if_neg (by simp [hteam]), hcard]
  · intro room pid cid p card hfind hrole hteam hcard hrev
    unfold RS.revealCard
    rw [hfind]
    dsimp only
    rw [if_neg (by simp [hrole]), if_neg (by simp [hteam]), hcard]
    dsimp only
    rw [if_pos hrev]

/-- Room of the C1 witness's already-revealed case: a red guesser and an
already-revealed card. -/
def c1room2 : RS.RoomState :=
  mkRoom [mkPlayer "g" "Geedi" (some .red) .guesser] none none
    [mkCard "c0" "w0" .red true] 9 8 none

/-- Supabase-client room of the C1 witness: turn still `WAITING_HINT`. -/
def c1sbroom : SB.Room :=
  { code := "ROOM11"
    game_status := .PLAYING
    turn_team := .red
    turn_status := .WAITING_HINT
    hint_word := none
    hint_number := none
    guesses_left := 0
    words := List.replicate 25 "w"
    key_map := c2keyMap
    revealed := List.replicate 25 false
    version := 3 }

/-- C1 witness: a spymaster's reveal throws in the room-store; an
already-revealed card is a silent no-op there; and a reveal during
`WAITING_HINT` is a silent no-op in the part_012 client. -/
theorem c1_witness :
    (RS.findPlayer c1room "s" = some (mkPlayer "s" "Sagal" (some .red) .spymaster) ∧
      RS.revealCard c1room "s" "c0" = .error "Only guessers can reveal cards") ∧
    (RS.revealCard c1room2 "g" "c0" = .ok c1room2) ∧
    (SB.revealCard c1sbroom .red .guesser "card-0" = c1sbroom) :=
  ⟨⟨by decide, c1_reveal_preconditions.1 c1room "s" "c0"
      (mkPlayer "s" "Sagal" (some .red) .spymaster) (by decide) (by decide)⟩,
    c1_reveal_preconditions.2.2.2.1 c1room2 "g" "c0"
      (mkPlayer "g" "Geedi" (some .red) .guesser) (mkCard "c0" "w0" .red true)
      (by decide) (by decide) (by decide) (by decide) (by decide),
    c1_reveal_preconditions.2.2.2.2.2.1 c1sbroom .red .guesser "card-0" (by decide)⟩

/-! ## C3 -/

deriving instance DecidableEq for Except

/-- Room of the C3 counterexample: a red guesser, an unrevealed assassin and
an unrevealed neutral card. -/
def c3room : RS.RoomState :=
  mkRoom [mkPlayer "g" "Geedi" (some .red) .guesser] none none
    [mkCard "a" "wa" .assassin false, mkCard "n1" "wn" .neutral false] 9 8 none

/-- C3 counterexample: in the backend room-store, after the assassin reveal
sets `winner = 'assassinated'`, a further `revealCard` on the same room is
not a no-op — it returns a changed room (the second card becomes revealed),
because `revealCard` never checks `winner`. -/
theorem c3_counterexample :
    (RS.revealCard c3room "g" "a").map (fun r => r.winner)
      = .ok (some .assassinated) ∧
    ((RS.revealCard c3room "g" "a").bind (fun r => RS.revealCard r "g" "n1"))
      ≠ RS.revealCard c3room "g" "a" := by
  exact ⟨rfl, by decide⟩

/-- C3 (amended): any reveal of an unrevealed assassin card in the backend
room-store sets `winner` to the `'assassinated'` marker while leaving
`currentTeam` (the guessing team, which the marker is read against) in place,
regardless of the card counters; but only the part_012 supabase client makes
every subsequent `revealCard` on a finished room a no-op — its reveal guard
returns the room unchanged whenever the derived winner is set, whereas the
backend room-store performs no winner check (see the counterexample). -/
theorem c3_assassin_amended :
    (∀ (room : RS.RoomState) (pid cid : String) (p : RS.Player) (card : RS.Card),
      RS.findPlayer room pid = some p → p.role = .guesser →
      p.team = some room.currentTeam →
      room.cards.find? (fun c => c.id == cid) = some card →
      card.revealed = false → card.type = .assassin →
      (RS.revealCard room pid cid).map (fun r => r.winner)
        = .ok (some .assassinated) ∧
      (RS.revealCard room pid cid).map (fun r => r.currentTeam)
        = .ok room.currentTeam ∧
      (RS.revealCard room pid cid).map (fun r => r.redCardsLeft)
        = .ok room.redCardsLeft ∧
      (RS.revealCard room pid cid).map (fun r => r.blueCardsLeft)
        = .ok room.blueCardsLeft) ∧
    (∀ (room : SB.Room) (mt : Team) (mr : Role) (cid : String),
      (SB.winner room).isSome → SB.revealCard room mt mr cid = room) := by
  refine ⟨?_, fun room mt mr cid h => sb_revealCard_noop room mt mr cid (Or.inl h)⟩
  intro room pid cid p card hfind hrole hteam hcard hrev htype
  unfold RS.revealCard
  rw [hfind]
  dsimp only
  rw [if_neg (by simp [hrole]), if_neg (by simp [hteam]), hcard]
  dsimp only
  rw [hrev]
  rw [if_neg (by simp : ¬ (false = true))]
  rw [htype]
  exact ⟨rfl, rfl, rfl, rfl⟩

/-- C3 witness: the assassin reveal at the counterexample room, and the
part_012 no-op at a finished room. -/
def c3sbroom : SB.Room :=
  { code := "ROOM03"
    game_status := .ENDED
    turn_team := .blue
    turn_status := .GUESSING
    hint_word := none
    hint_number := none
    guesses_left := 2
    words := List.replicate 25 "w"
    key_map := c2keyMap
    revealed := listSetPad (List.replicate 25 false) 24 true
    version := 9 }

theorem c3_witness :
    ((RS.revealCard c3room "g" "a").map (fun r => r.winner)
        = .ok (some .assassinated) ∧
      (RS.revealCard c3room "g" "a").map (fun r => r.currentTeam)
        = .ok c3room.currentTeam ∧
      (RS.revealCard c3room "g" "a").map (fun r => r.redCardsLeft)
        = .ok c3room.redCardsLeft ∧
      (RS.revealCard c3room "g" "a").map (fun r => r.blueCardsLeft)
        = .ok c3room.blueCardsLeft) ∧
    ((SB.winner c3sbroom).isSome ∧
      SB.revealCard c3sbroom .blue .guesser "card-3" = c3sbroom) :=
  ⟨c3_assassin_amended.1 c3room "g" "a" (mkPlayer "g" "Geedi" (some .red) .guesser)
      (mkCard "a" "wa" .assassin false) (by decide) (by decide) (by decide)
      (by decide) (by decide) (by decide),
    ⟨by decide,
      c3_assassin_amended.2 c3sbroom .blue .guesser "card-3" (by decide)⟩⟩

/-! ## C4 -/

/-- Room of the C4 counterexample: `winner` is already `'assassinated'`, the
red guesser can still act (the turn never advanced past the assassin), and
one red card remains. -/
def c4room : RS.RoomState :=
  mkRoom [mkPlayer "g" "Geedi" (some .red) .guesser] none none
    [mkCard "r1" "wr" .red false] 1 8 (some .assassinated)

/-- C4 counterexample: in the backend room-store a `revealCard` call on a room
whose `winner` is already set overwrites it — revealing the last red card
turns `winner` from `'assassinated'` into `'red'` — so a non-`resetGame`
operation does change a non-null winner. -/
theorem c4_counterexample :
    c4room.winner = some .assassinated ∧
    (RS.revealCard c4room "g" "r1").map (fun r => r.winner) = .ok (some .red) := by
  exact ⟨rfl, rfl⟩

set_option maxHeartbeats 1000000 in
/-- C4 (amended): in the backend room-store, `winner` is null until a terminal
condition is reached — a successful `revealCard` starting from a null winner
either leaves it null, or sets `'assassinated'` on an assassin card, or sets
a team exactly when that team's counter has reached zero — and `sendHint`,
`endTurn`, `selectTeam`, `setRole`, `toggleMic` and `joinRoom` never change
`winner`; but `revealCard` itself performs no winner check, so it can
overwrite an already-set winner (see the counterexample), and `resetGame`
clears it. -/
theorem c4_winner_amended :
    (∀ (room : RS.RoomState) (pid w : String) (n : Nat) (r : RS.RoomState),
      RS.sendHint room pid w n = .ok r → r.winner = room.winner) ∧
    (∀ (room : RS.RoomState) (pid : String) (r : RS.RoomState),
      RS.endTurn room pid = .ok r → r.winner = room.winner) ∧
    (∀ (room : RS.RoomState) (pid : String) (t : Team) (r : RS.RoomState),
      RS.selectTeam room pid t = .ok r → r.winner = room.winner) ∧
    (∀ (room : RS.RoomState) (pid : String) (rl : Role) (rb : RS.RoomState × Bool),
      RS.setRole room pid rl = .ok rb → rb.1.winner = room.winner) ∧
    (∀ (room : RS.RoomState) (pid : String) (r : RS.RoomState),
      RS.toggleMic room pid = .ok r → r.winner = room.winner) ∧
    (∀ (room : RS.RoomState) (pid name : String),
      (RS.joinRoom room pid name).1.winner = room.winner) ∧
    (∀ (room : RS.RoomState) (pid cid : String) (r : RS.RoomState),
      room.winner = none → RS.revealCard room pid cid = .ok r →
      r.winner = none ∨
      (r.winner = some .assassinated ∧
        (room.cards.find? (fun c => c.id == cid)).map (fun c => c.type)
          = some .assassin) ∨
      (r.winner = some .red ∧ r.redCardsLeft = 0) ∨
      (r.winner = some .blue ∧ r.blueCardsLeft = 0)) := by
  refine ⟨?_, ?_, ?_, ?_, ?_, ?_, ?_⟩
  · intro room pid w n r h
    unfold RS.sendHint at h
    cases hf : RS.findPlayer room pid <;> rw [hf] at h
    · exact Except.noConfusion h
    · dsimp only at h
      split_ifs at h
      injection h with h
      rw [← h]
      rfl
  · intro room pid r h
    unfold RS.endTurn at h
    split_ifs at h
    injection h with h
    rw [← h]
  · intro room pid t r h
    unfold RS.selectTeam at h
    cases hf : RS.findPlayer room pid <;> rw [hf] at h
    · exact Except.noConfusion h
    · injection h with h
      rw [← h]
  · intro room pid rl rb h
    unfold RS.setRole at h
    cases hf : RS.findPlayer room pid <;> rw [hf] at h
    · exact Except.noConfusion h
    · rename_i p
      dsimp only at h
      cases hpt : p.team <;> rw [hpt] at h
      · exact Except.noConfusion h
      · rename_i t
        cases rl
        · dsimp only at h
          injection h with h
          rw [← h]
          cases t <;> rfl
        · dsimp only at h
          split_ifs at h <;>
            (injection h with h
             rw [← h]
             try (cases t <;> rfl))
  · intro room pid r h
    unfold RS.toggleMic at h
    cases hf : RS.findPlayer room pid <;> rw [hf] at h
    · exact Except.noConfusion h
    · injection h with h
      rw [← h]
  · intro room pid name
    unfold RS.joinRoom
    cases hf : room.players.find? (fun q => q.id == pid) <;> rfl
  · intro room pid cid r hnone h
    unfold RS.revealCard at h
    cases hf : RS.findPlayer room pid <;> rw [hf] at h
    · exact Except.noConfusion h
    · dsimp only at h
      split_ifs at h
      all_goals cases hc : room.cards.find? (fun c => c.id == cid) <;> rw [hc] at h
      all_goals try exact Except.noConfusion h
      all_goals rename_i card
      all_goals dsimp only at h
      all_goals
        by_cases hrev : card.revealed = true
        · rw [if_pos hrev] at h
          injection h with h
          rw [← h]
          exact Or.inl hnone
        · rw [if_neg hrev] at h
          cases hty : card.type <;> rw [hty] at h <;> dsimp only at h <;>
            (try rw [hnone] at h) <;>
            split_ifs at h <;>
            first
              | exact Except.noConfusion h
              | (injection h with h
                 rw [← h]
                 first
                   | exact Or.inl hnone
                   | exact Or.inl rfl
                   | exact Or.inr (Or.inr (Or.inl ⟨rfl, by assumption⟩))
                   | exact Or.inr (Or.inr (Or.inr ⟨rfl, by assumption⟩))
                   | exact Or.inr (Or.inl ⟨rfl, by rw [hc]; simp [hty]⟩)
                   | simp_all)
              | simp_all

/-- An ended-game room whose spymaster ends a turn in the C4 witness. -/
def c4endroom : RS.RoomState :=
  mkRoom [mkPlayer "s" "Sagal" (some .red) .spymaster] (some "s") none [] 9 8
    (some .assassinated)

def c4endroom1 : RS.RoomState :=
  { c4endroom with currentTeam := Team.red.other, currentHint := none }

/-- The revealed assassin card, as `revealCard` marks it. -/
def c4acard : RS.Card :=
  { id := "a"
    word := "wa"
    type := .assassin
    revealed := true
    revealedByTeam := some Team.red }

/-- The result of the assassin reveal at `c3room`, used in the C4 witness. -/
def c4revres : RS.RoomState :=
  { c3room with
    cards := [c4acard, mkCard "n1" "wn" .neutral false]
    winner := some .assassinated }

/-- C4 witness: `endTurn` preserves a set winner, and a reveal from a null
winner only sets it at a terminal condition (here: the assassin). -/
theorem c4_witness :
    (RS.endTurn c4endroom "s" = .ok c4endroom1 ∧
      c4endroom1.winner = c4endroom.winner) ∧
    (c3room.winner = none ∧ RS.revealCard c3room "g" "a" = .ok c4revres ∧
      (c4revres.winner = none ∨
        (c4revres.winner = some .assassinated ∧
          (c3room.cards.find? (fun c => c.id == "a")).map (fun c => c.type)
            = some .assassin) ∨
        (c4revres.winner = some .red ∧ c4revres.redCardsLeft = 0) ∨
        (c4revres.winner = some .blue ∧ c4revres.blueCardsLeft = 0))) :=
  ⟨⟨by rfl, c4_winner_amended.2.1 c4endroom "s" c4endroom1 (by rfl)⟩,
    ⟨by rfl, by decide,
      c4_winner_amended.2.2.2.2.2.2 c3room "g" "a" c4revres (by rfl) (by decide)⟩⟩

/-! ## C8 -/

/-- C8: a `resetGame` by a player holding their team's spymaster slot.  In the
backend room-store the roster and both spymaster slots are unchanged while the
deck is regenerated fresh (the new `createNewGameState` board, counters 9/8,
red to move), `winner` becomes null and the hint plus its history are
cleared; and in the `game-context.tsx` client (whose room row alone is
updated — player rows are a separate table it does not touch) the turn state
returns to `WAITING_HINT` with `guessesLeft = 0`, the winner and hint are
cleared, the board is replaced by the freshly generated one with all 25 cards
unrevealed, and the game status returns to `PLAYING`. -/
theorem c8_resetGame_frame :
    (∀ (room : RS.RoomState) (pid : String) (p : RS.Player) (pool : List String)
      (r1 r2 : List Nat) (ts : Nat) (r : RS.RoomState),
      RS.findPlayer room pid = some p →
      RS.slotOf room (RS.spymasterKeyOfOptTeam p.team) = some pid →
      RS.resetGame room pid pool r1 r2 ts = .ok r →
      r.players = room.players ∧
      r.redSpymasterId = room.redSpymasterId ∧
      r.blueSpymasterId = room.blueSpymasterId ∧
      r.winner = none ∧
      r.currentHint = none ∧
      r.hintHistory = [] ∧
      r.cards = (RS.createNewGameState pool r1 r2 ts).cards ∧
      r.currentTeam = .red ∧ r.redCardsLeft = 9 ∧ r.blueCardsLeft = 8) ∧
    (∀ (room : DB.Room) (words : List String) (keyMap : List CardType) (st : Team),
      (DB.resetGame room words keyMap st).turn_status = .WAITING_HINT ∧
      (DB.resetGame room words keyMap st).guesses_left = 0 ∧
      (DB.resetGame room words keyMap st).winner_team = none ∧
      (DB.resetGame room words keyMap st).hint_word = none ∧
      (DB.resetGame room words keyMap st).hint_number = none ∧
      (DB.resetGame room words keyMap st).revealed = List.replicate 25 false ∧
      (DB.resetGame room words keyMap st).words = words ∧
      (DB.resetGame room words keyMap st).key_map = keyMap ∧
      (DB.resetGame room words keyMap st).turn_team = st ∧
      (DB.resetGame room words keyMap st).game_status = .PLAYING) := by
  constructor
  · intro room pid p pool r1 r2 ts r hfind hslot h
    unfold RS.resetGame at h
    rw [hfind] at h
    dsimp only at h
    rw [if_neg (by simp [hslot])] at h
    injection h with h
    rw [← h]
    exact ⟨rfl, rfl, rfl, rfl, rfl, rfl, rfl, rfl, rfl, rfl⟩
  · intro room words keyMap st
    exact ⟨rfl, rfl, rfl, rfl, rfl, rfl, rfl, rfl, rfl, rfl⟩

/-- Room of the C8 witness: red spymaster `s`, finished game. -/
def c8room : RS.RoomState :=
  mkRoom [mkPlayer "s" "Sagal" (some .red) .spymaster] (some "s") none
    [mkCard "x" "wx" .red true] 0 8 (some .red)

/-- The reset result at `c8room` with pool `c9pool`. -/
def c8res : RS.RoomState :=
  { c8room with
    cards := (RS.createNewGameState c9pool [] [] 0).cards
    currentTeam := .red
    redCardsLeft := 9
    blueCardsLeft := 8
    winner := none
    currentHint := none
    hintHistory := []
    gameStarted := true }

/-- C8 witness: the concrete reset. -/
theorem c8_witness :
    (RS.findPlayer c8room "s" = some (mkPlayer "s" "Sagal" (some .red) .spymaster) ∧
      RS.slotOf c8room (RS.spymasterKeyOfOptTeam (some Team.red)) = some "s" ∧
      RS.resetGame c8room "s" c9pool [] [] 0 = .ok c8res) ∧
    (c8res.players = c8room.players ∧
      c8res.redSpymasterId = c8room.redSpymasterId ∧
      c8res.blueSpymasterId = c8room.blueSpymasterId ∧
      c8res.winner = none ∧
      c8res.currentHint = none ∧
      c8res.hintHistory = [] ∧
      c8res.cards = (RS.createNewGameState c9pool [] [] 0).cards ∧
      c8res.currentTeam = .red ∧ c8res.redCardsLeft = 9 ∧ c8res.blueCardsLeft = 8) ∧
    ((DB.resetGame c7room c9pool c2keyMap .blue).turn_status = .WAITING_HINT ∧
      (DB.resetGame c7room c9pool c2keyMap .blue).guesses_left = 0 ∧
      (DB.resetGame c7room c9pool c2keyMap .blue).winner_team = none ∧
      (DB.resetGame c7room c9pool c2keyMap .blue).hint_word = none ∧
      (DB.resetGame c7room c9pool c2keyMap .blue).hint_number = none ∧
      (DB.resetGame c7room c9pool c2keyMap .blue).revealed
        = List.replicate 25 false ∧
      (DB.resetGame c7room c9pool c2keyMap .blue).words = c9pool ∧
      (DB.resetGame c7room c9pool c2keyMap .blue).key_map = c2keyMap ∧
      (DB.resetGame c7room c9pool c2keyMap .blue).turn_team = .blue ∧
      (DB.resetGame c7room c9pool c2keyMap .blue).game_status = .PLAYING) :=
  ⟨⟨by rfl, by rfl, by rfl⟩,
    c8_resetGame_frame.1 c8room "s" (mkPlayer "s" "Sagal" (some .red) .spymaster)
      c9pool [] [] 0 c8res (by rfl) (by rfl) (by rfl),
    c8_resetGame_frame.2 c7room c9pool c2keyMap .blue⟩

/-! ## C5 — operations, traces and the spymaster-slot invariant -/

theorem mem_updateFirst_self {P : α → Bool} {f : α → α} {l : List α} {a : α}
    (hfind : l.find? P = some a) : f a ∈ updateFirst P f l := by
  induction l with
  | nil => simp at hfind
  | cons b t ih =>
    by_cases h : P b = true
    · rw [List.find?_cons_of_pos _ h] at hfind
      injection hfind with hfind
      rw [updateFirst, if_pos h, hfind]
      exact List.mem_cons_self _ _
    · rw [List.find?_cons_of_neg _ h] at hfind
      rw [updateFirst, if_neg h]
      exact List.mem_cons_of_mem _ (ih hfind)

theorem mem_updateFirst_key_eq {k : α → String} {x : String} {f : α → α}
    {l : List α} {a q : α} (hnd : (l.map k).Nodup)
    (hfind : l.find? (fun b => k b == x) = some a)
    (hq : q ∈ updateFirst (fun b => k b == x) f l) (hqx : k q = x) : q = f a := by
  induction l with
  | nil => simp at hfind
  | cons b t ih =>
    have hnd2 : k b ∉ t.map k ∧ (t.map k).Nodup := by simpa using hnd
    by_cases h : k b = x
    · rw [List.find?_cons_of_pos _ (by simpa using h)] at hfind
      injection hfind with hfind
      rw [updateFirst, if_pos (by simpa using h)] at hq
      rcases List.mem_cons.mp hq with h' | h'
      · rw [h', hfind]
      · exfalso
        have : k q ∈ t.map k := List.mem_map_of_mem k h'
        rw [hqx, ← h] at this
        exact hnd2.1 this
    · rw [List.find?_cons_of_neg _ (by simpa using h)] at hfind
      rw [updateFirst, if_neg (by simpa using h)] at hq
      rcases List.mem_cons.mp hq with h' | h'
      · exact absurd (h' ▸ hqx) h
      · exact ih hnd2.2 hfind h'

namespace RS

/-- The mutating operations of the room-store, with the randomness of
`resetGame` passed explicitly. -/
inductive Op where
  | joinRoom (pid name : String)
  | selectTeam (pid : String) (t : Team)
  | setRole (pid : String) (r : Role)
  | sendHint (pid word : String) (n : Nat)
  | revealCard (pid cid : String)
  | endTurn (pid : String)
  | resetGame (pid : String) (pool : List String) (r1 r2 : List Nat) (ts : Nat)
  | toggleMic (pid : String)
deriving DecidableEq, Repr

/-- Run one operation.  A thrown error leaves the room unchanged (every throw
in the store happens before any mutation). -/
def applyOp (room : RoomState) : Op → RoomState
  | .joinRoom pid name => (joinRoom room pid name).1
  | .selectTeam pid t => (selectTeam room pid t).toOption.getD room
  | .setRole pid r => ((setRole room pid r).map (fun rb => rb.1)).toOption.getD room
  | .sendHint pid w n => (sendHint room pid w n).toOption.getD room
  | .revealCard pid cid => (revealCard room pid cid).toOption.getD room
  | .endTurn pid => (endTurn room pid).toOption.getD room
  | .resetGame pid pool r1 r2 ts => (resetGame room pid pool r1 r2 ts).toOption.getD room
  | .toggleMic pid => (toggleMic room pid).toOption.getD room

def applyOps (room : RoomState) (ops : List Op) : RoomState :=
  ops.foldl applyOp room

/-- Whether the team slot is either empty or points at a player of that team
holding the `spymaster` role. -/
def slotOkB (room : RoomState) (t : Team) : Bool :=
  match slotOf room t with
  | none => true
  | some pid =>
    room.players.any fun p => p.id == pid && p.team == some t && p.role == Role.spymaster

/-- Number of players of team `t` whose role is `spymaster`. -/
def teamSpymasterCount (room : RoomState) (t : Team) : Nat :=
  room.players.countP fun p => p.team == some t && p.role == Role.spymaster

/-- The claim's invariant: each spymaster slot is null or points at a matching
active spymaster of its team, and each team has at most one spymaster. -/
def SlotInv (room : RoomState) : Prop :=
  slotOkB room .red = true ∧ slotOkB room .blue = true ∧
  teamSpymasterCount room .red ≤ 1 ∧ teamSpymasterCount room .blue ≤ 1

/-- The inductive strengthening: player ids are distinct, every
spymaster-role player is pointed at by their team's slot, and every slot
points at a matching member. -/
def StrongInv (room : RoomState) : Prop :=
  (room.players.map (fun p => p.id)).Nodup ∧
  (∀ p ∈ room.players, p.role = .spymaster →
    ∃ t : Team, p.team = some t ∧ slotOf room t = some p.id) ∧
  (∀ t : Team, ∀ pid, slotOf room t = some pid →
    ∃ p ∈ room.players, p.id = pid ∧ p.team = some t ∧ p.role = .spymaster)

/-- A `selectTeam` step is benign when its caller is not currently a
spymaster, or is re-selecting their current team; every other operation is
unrestricted. -/
def okStepB (room : RoomState) : Op → Bool
  | .selectTeam pid t =>
    match room.players.find? (fun p => p.id == pid) with
    | none => true
    | some p => !(p.role == Role.spymaster) || (p.team == some t)
  | _ => true

/-- All steps of the trace are benign in the sense of `okStepB`. -/
def okTraceB : RoomState → List Op → Bool
  | _, [] => true
  | room, op :: rest => okStepB room op && okTraceB (applyOp room op) rest

end RS

namespace RS

theorem strongInv_frame {room room' : RoomState}
    (hp : room'.players = room.players)
    (hr : room'.redSpymasterId = room.redSpymasterId)
    (hb : room'.blueSpymasterId = room.blueSpymasterId)
    (h : StrongInv room) : StrongInv room' := by
  obtain ⟨h1, h2, h3⟩ := h
  have hslot : ∀ t, slotOf room' t = slotOf room t := by
    intro t
    cases t
    · exact hr
    · exact hb
  refine ⟨hp ▸ h1, ?_, ?_⟩
  · intro p hpmem hrole
    rw [hp] at hpmem
    obtain ⟨t, ht, hs⟩ := h2 p hpmem hrole
    exact ⟨t, ht, (hslot t).trans hs⟩
  · intro t pid hs
    rw [hslot t] at hs
    obtain ⟨p, hmem, hrest⟩ := h3 t pid hs
    exact ⟨p, hp ▸ hmem, hrest⟩

theorem sendHint_frame (room : RoomState) (pid w : String) (n : Nat) (r : RoomState)
    (h : sendHint room pid w n = .ok r) :
    r.players = room.players ∧ r.redSpymasterId = room.redSpymasterId ∧
      r.blueSpymasterId = room.blueSpymasterId := by
  unfold sendHint at h
  cases hf : findPlayer room pid <;> rw [hf] at h
  · exact Except.noConfusion h
  · dsimp only at h
    split_ifs at h
    injection h with h
    rw [← h]
    exact ⟨rfl, rfl, rfl⟩

theorem endTurn_frame (room : RoomState) (pid : String) (r : RoomState)
    (h : endTurn room pid = .ok r) :
    r.players = room.players ∧ r.redSpymasterId = room.redSpymasterId ∧
      r.blueSpymasterId = room.blueSpymasterId := by
  unfold endTurn at h
  split_ifs at h
  injection h with h
  rw [← h]
  exact ⟨rfl, rfl, rfl⟩

theorem resetGame_frame (room : RoomState) (pid : String) (pool : List String)
    (r1 r2 : List Nat) (ts : Nat) (r : RoomState)
    (h : resetGame room pid pool r1 r2 ts = .ok r) :
    r.players = room.players ∧ r.redSpymasterId = room.redSpymasterId ∧
      r.blueSpymasterId = room.blueSpymasterId := by
  unfold resetGame at h
  cases hf : findPlayer room pid <;> rw [hf] at h
  · exact Except.noConfusion h
  · dsimp only at h
    split_ifs at h
    injection h with h
    rw [← h]
    exact ⟨rfl, rfl, rfl⟩

set_option maxHeartbeats 1000000 in
theorem revealCard_frame (room : RoomState) (pid cid : String) (r : RoomState)
    (h : revealCard room pid cid = .ok r) :
    r.players = room.players ∧ r.redSpymasterId = room.redSpymasterId ∧
      r.blueSpymasterId = room.blueSpymasterId := by
  unfold revealCard at h
  cases hf : findPlayer room pid <;> rw [hf] at h
  · exact Except.noConfusion h
  · dsimp only at h
    split_ifs at h
    all_goals cases hc : room.cards.find? (fun c => c.id == cid) <;> rw [hc] at h
    all_goals try exact Except.noConfusion h
    all_goals rename_i card
    all_goals dsimp only at h
    all_goals
      by_cases hrev : card.revealed = true
      · rw [if_pos hrev] at h
        injection h with h
        rw [← h]
        exact ⟨rfl, rfl, rfl⟩
      · rw [if_neg hrev] at h
        cases hty : card.type <;> rw [hty] at h <;> dsimp only at h <;>
          split_ifs at h <;>
          (injection h with h
           rw [← h]
           exact ⟨rfl, rfl, rfl⟩)

theorem strongInv_updatePlayers (room : RoomState) (x : String) (f : Player → Player)
    (hid : ∀ p, (f p).id = p.id) (hteam : ∀ p, (f p).team = p.team)
    (hrole : ∀ p, (f p).role = p.role) (h : StrongInv room) :
    StrongInv { room with players := updateFirst (fun p => p.id == x) f room.players } := by
  obtain ⟨h1, h2, h3⟩ := h
  have hslot : ∀ t,
      slotOf { room with players := updateFirst (fun p => p.id == x) f room.players } t
        = slotOf room t := by
    intro t
    cases t <;> rfl
  refine ⟨?_, ?_, ?_⟩
  · show ((updateFirst (fun p => p.id == x) f room.players).map (fun p => p.id)).Nodup
    rw [updateFirst_map (fun p => p.id) hid room.players]
    exact h1
  · intro p' hp' hrole'
    rcases mem_updateFirst hp' with hmem | ⟨a, hfind, rfl⟩
    · obtain ⟨t, ht, hs⟩ := h2 p' hmem hrole'
      exact ⟨t, ht, (hslot t).trans hs⟩
    · have ha : a ∈ room.players := List.mem_of_find?_eq_some hfind
      have har : a.role = .spymaster := by rw [← hrole a]; exact hrole'
      obtain ⟨t, ht, hs⟩ := h2 a ha har
      exact ⟨t, (hteam a).trans ht, (hslot t).trans (by rw [hid a]; exact hs)⟩
  · intro t pid hs
    rw [hslot t] at hs
    obtain ⟨p, hmem, hpid, hpteam, hprole⟩ := h3 t pid hs
    by_cases hx : p.id = x
    · have hfind : room.players.find? (fun q => q.id == x) = some p := by
        have hf := find?_of_mem_nodup (fun q => q.id) h1 hmem
        simpa [hx] using hf
      exact ⟨f p, mem_updateFirst_self hfind, (hid p).trans hpid,
        (hteam p).trans hpteam, (hrole p).trans hprole⟩
    · exact ⟨p, mem_updateFirst_of_ne hmem (by simpa using hx), hpid, hpteam, hprole⟩

end RS

theorem updateFirst_eq_of_find?_none {P : α → Bool} {f : α → α} {l : List α}
    (h : l.find? P = none) : updateFirst P f l = l := by
  induction l with
  | nil => rfl
  | cons b t ih =>
    by_cases hb : P b = true
    · rw [List.find?_cons_of_pos _ hb] at h
      exact Option.noConfusion h
    · rw [List.find?_cons_of_neg _ hb] at h
      rw [updateFirst, if_neg hb, ih h]

theorem eq_of_mem_map_nodup {k : α → String} {l : List α} {p q : α}
    (hnd : (l.map k).Nodup) (hp : p ∈ l) (hq : q ∈ l) (hk : k p = k q) : p = q := by
  induction l with
  | nil => simp at hp
  | cons b t ih =>
    have hnd2 : k b ∉ t.map k ∧ (t.map k).Nodup := by simpa using hnd
    rcases List.mem_cons.mp hp with hp' | hp' <;> rcases List.mem_cons.mp hq with hq' | hq'
    · rw [hp', hq']
    · exfalso
      subst hp'
      exact hnd2.1 (hk ▸ List.mem_map_of_mem k hq')
    · exfalso
      subst hq'
      exact hnd2.1 (hk ▸ List.mem_map_of_mem k hp')
    · exact ih hnd2.2 hp' hq'

namespace RS

theorem strongInv_joinRoom (room : RoomState) (pid name : String)
    (h : StrongInv room) : StrongInv (joinRoom room pid name).1 := by
  obtain ⟨h1, h2, h3⟩ := h
  unfold joinRoom
  cases hf : room.players.find? (fun p => p.id == pid) with
  | some p =>
    dsimp only
    exact strongInv_updatePlayers room pid (fun q => { q with name := jsTrim name })
      (fun _ => rfl) (fun _ => rfl) (fun _ => rfl) ⟨h1, h2, h3⟩
  | none =>
    dsimp only
    have hpid : pid ∉ room.players.map (fun p => p.id) := by
      intro hmem
      obtain ⟨q, hq, hqid⟩ := List.mem_map.mp hmem
      have := List.find?_eq_none.mp hf q hq
      simp [hqid] at this
    have hslot : ∀ t,
        slotOf { room with
          players := room.players ++ [createPlayer pid (jsTrim name)] } t
          = slotOf room t := by
      intro t
      cases t <;> rfl
    refine ⟨?_, ?_, ?_⟩
    · show ((room.players ++ [createPlayer pid (jsTrim name)]).map
        (fun p => p.id)).Nodup
      rw [List.map_append]
      refine List.Nodup.append h1 (List.nodup_singleton _) ?_
      intro a ha hb
      rw [show (([createPlayer pid (jsTrim name)]).map (fun p => p.id))
        = [pid] from rfl] at hb
      rw [List.mem_singleton] at hb
      exact hpid (hb ▸ ha)
    · intro p' hp' hrole'
      rcases List.mem_append.mp hp' with hmem | hmem
      · obtain ⟨t, ht, hs⟩ := h2 p' hmem hrole'
        exact ⟨t, ht, (hslot t).trans hs⟩
      · rw [List.mem_singleton] at hmem
        rw [hmem] at hrole'
        exact absurd hrole' (by simp [createPlayer])
    · intro t pid2 hs
      rw [hslot t] at hs
      obtain ⟨p, hmem, hrest⟩ := h3 t pid2 hs
      exact ⟨p, List.mem_append_left _ hmem, hrest⟩

theorem strongInv_selectTeam (room : RoomState) (pid : String) (t : Team)
    (hok : okStepB room (.selectTeam pid t) = true)
    (h : StrongInv room) : StrongInv (applyOp room (.selectTeam pid t)) := by
  obtain ⟨h1, h2, h3⟩ := h
  dsimp only [applyOp]
  unfold selectTeam
  cases hf : findPlayer room pid with
  | none => exact ⟨h1, h2, h3⟩
  | some p0 =>
    have hf' : room.players.find? (fun p => p.id == pid) = some p0 := hf
    dsimp only [Except.toOption, Option.getD]
    have hp0mem : p0 ∈ room.players := List.mem_of_find?_eq_some hf'
    have hp0id : p0.id = pid := by simpa using List.find?_some hf'
    have hres : (!(p0.role == Role.spymaster) || (p0.team == some t)) = true := by
      have hh := hok
      unfold okStepB at hh
      dsimp only at hh
      rw [hf'] at hh
      exact hh
    have hslot : ∀ t',
        slotOf { room with players := (updateFirst (fun p => p.id == pid)
          (fun p => { p with team := some t }) room.players) } t'
          = slotOf room t' := by
      intro t'
      cases t' <;> rfl
    refine ⟨?_, ?_, ?_⟩
    · show ((updateFirst (fun p => p.id == pid)
        (fun p => { p with team := some t }) room.players).map (fun p => p.id)).Nodup
      rw [@updateFirst_map Player String (fun p => p.id) (fun p => p.id == pid)
        (fun p => { p with team := some t }) (fun _ => rfl) room.players]
      exact h1
    · intro p' hp' hrole'
      rcases mem_updateFirst hp' with hmem | ⟨a, hfind, rfl⟩
      · obtain ⟨t', ht', hs'⟩ := h2 p' hmem hrole'
        exact ⟨t', ht', (hslot t').trans hs'⟩
      · have ha : a = p0 := by
          rw [hfind] at hf'
          injection hf'
        subst ha
        have haRole : a.role = .spymaster := hrole'
        have hteam : a.team = some t := by
          rcases Bool.or_eq_true_iff.mp hres with hh | hh
          · exact absurd haRole (by simpa using hh)
          · simpa using hh
        obtain ⟨t', ht', hs'⟩ := h2 a (List.mem_of_find?_eq_some hfind) haRole
        have htt : t = t' := by
          rw [hteam] at ht'
          injection ht'
        exact ⟨t', by simpa [htt] using rfl, (hslot t').trans (by simpa using hs')⟩
    · intro t' pid2 hs
      rw [hslot t'] at hs
      obtain ⟨p, hmem, hpid2, hpteam, hprole⟩ := h3 t' pid2 hs
      by_cases hx : p.id = pid
      · have hfindp : room.players.find? (fun q => q.id == pid) = some p := by
          have hfp := find?_of_mem_nodup (fun q => q.id) h1 hmem
          simpa [hx] using hfp
        have hpp0 : p = p0 := by
          rw [hfindp] at hf'
          injection hf'
        subst hpp0
        have hteam : p.team = some t := by
          rcases Bool.or_eq_true_iff.mp hres with hh | hh
          · exact absurd hprole (by simpa using hh)
          · simpa using hh
        have htt : t = t' := by
          rw [hteam] at hpteam
          injection hpteam
        refine ⟨{ p with team := some t }, mem_updateFirst_self hf', hpid2, ?_, hprole⟩
        rw [htt]
      · exact ⟨p, mem_updateFirst_of_ne hmem (by simpa using hx), hpid2, hpteam, hprole⟩

end RS

namespace RS

/-- `setRole(guesser)` by the player currently holding their team's slot:
the slot is cleared and the caller demoted. -/
theorem strongInv_demote_holder (room : RoomState) (pid : String) (p0 : Player)
    (t0 : Team) (hf' : room.players.find? (fun p => p.id == pid) = some p0)
    (hsl : slotOf room t0 = some pid)
    (h : StrongInv room) :
    StrongInv { setSlot room t0 none with
      players := (updateFirst (fun p => p.id == pid)
        (fun p => { p with role := .guesser }) (setSlot room t0 none).players) } := by
  obtain ⟨h1, h2, h3⟩ := h
  have hpl : (setSlot room t0 none).players = room.players := setSlot_players room t0 none
  rw [hpl]
  have hslot0 : slotOf { setSlot room t0 none with
      players := (updateFirst (fun p => p.id == pid)
        (fun p => { p with role := .guesser }) room.players) } t0 = none := by
    cases t0 <;> rfl
  have hslotO : ∀ t, t ≠ t0 → slotOf { setSlot room t0 none with
      players := (updateFirst (fun p => p.id == pid)
        (fun p => { p with role := .guesser }) room.players) } t = slotOf room t := by
    intro t htne
    cases t0 <;> cases t <;> first | rfl | exact absurd rfl htne
  have hplayers : ({ setSlot room t0 none with
      players := (updateFirst (fun p => p.id == pid)
        (fun p => { p with role := .guesser }) room.players) } : RoomState).players
        = updateFirst (fun p => p.id == pid)
            (fun p => { p with role := .guesser }) room.players := by
    cases t0 <;> rfl
  refine ⟨?_, ?_, ?_⟩
  · rw [hplayers]
    rw [@updateFirst_map Player String (fun p => p.id) (fun p => p.id == pid)
      (fun p => { p with role := .guesser }) (fun _ => rfl) room.players]
    exact h1
  · intro p' hp' hrole'
    rw [hplayers] at hp'
    by_cases hx : p'.id = pid
    · exfalso
      have heq := mem_updateFirst_key_eq (k := fun q : Player => q.id) h1 hf' hp' hx
      rw [heq] at hrole'
      exact absurd hrole' (by simp)
    · have hmem : p' ∈ room.players := by
        rcases mem_updateFirst hp' with hm | ⟨a, hfa, hpa⟩
        · exact hm
        · exfalso
          apply hx
          rw [hpa]
          show a.id = pid
          have := List.find?_some hfa
          simpa using this
      obtain ⟨t', ht', hs'⟩ := h2 p' hmem hrole'
      have htne : t' ≠ t0 := by
        intro hh
        subst hh
        rw [hsl] at hs'
        injection hs' with hs'
        exact hx hs'.symm
      exact ⟨t', ht', (hslotO t' htne).trans hs'⟩
  · intro t pid2 hs
    by_cases htt : t = t0
    · subst htt
      rw [hslot0] at hs
      exact Option.noConfusion hs
    · rw [hslotO t htt] at hs
      obtain ⟨p, hmem, hpid2, hpteam, hprole⟩ := h3 t pid2 hs
      have hx : p.id ≠ pid := by
        intro hh
        obtain ⟨q, hqmem, hqid, hqteam, hqrole⟩ := h3 t0 pid hsl
        have hpq : p = q := eq_of_mem_map_nodup h1 hmem hqmem (by rw [hh, hqid])
        rw [hpq, hqteam] at hpteam
        injection hpteam with hpteam
        exact htt hpteam.symm
      rw [hplayers]
      exact ⟨p, mem_updateFirst_of_ne hmem (by simpa using hx), hpid2, hpteam, hprole⟩

/-- `setRole(guesser)` by a player who does not hold their team's slot. -/
theorem strongInv_demote_nonholder (room : RoomState) (pid : String) (p0 : Player)
    (t0 : Team) (hf' : room.players.find? (fun p => p.id == pid) = some p0)
    (ht0 : p0.team = some t0)
    (hsl : slotOf room t0 ≠ some pid)
    (h : StrongInv room) :
    StrongInv { room with
      players := (updateFirst (fun p => p.id == pid)
        (fun p => { p with role := .guesser }) room.players) } := by
  obtain ⟨h1, h2, h3⟩ := h
  have hslotE : ∀ t, slotOf { room with
      players := (updateFirst (fun p => p.id == pid)
        (fun p => { p with role := .guesser }) room.players) } t = slotOf room t := by
    intro t
    cases t <;> rfl
  refine ⟨?_, ?_, ?_⟩
  · show ((updateFirst (fun p => p.id == pid)
      (fun p => { p with role := .guesser }) room.players).map (fun p => p.id)).Nodup
    rw [@updateFirst_map Player String (fun p => p.id) (fun p => p.id == pid)
      (fun p => { p with role := .guesser }) (fun _ => rfl) room.players]
    exact h1
  · intro p' hp' hrole'
    by_cases hx : p'.id = pid
    · exfalso
      have heq := mem_updateFirst_key_eq (k := fun q : Player => q.id) h1 hf' hp' hx
      rw [heq] at hrole'
      exact absurd hrole' (by simp)
    · have hmem : p' ∈ room.players := by
        rcases mem_updateFirst hp' with hm | ⟨a, hfa, hpa⟩
        · exact hm
        · exfalso
          apply hx
          rw [hpa]
          show a.id = pid
          have := List.find?_some hfa
          simpa using this
      obtain ⟨t', ht', hs'⟩ := h2 p' hmem hrole'
      exact ⟨t', ht', (hslotE t').trans hs'⟩
  · intro t pid2 hs
    rw [hslotE t] at hs
    obtain ⟨p, hmem, hpid2, hpteam, hprole⟩ := h3 t pid2 hs
    have hx : p.id ≠ pid := by
      intro hh
      have hfp : room.players.find? (fun q => q.id == pid) = some p := by
        have := find?_of_mem_nodup (fun q : Player => q.id) h1 hmem
        simpa [hh] using this
      have hpp0 : p = p0 := by
        rw [hfp] at hf'
        injection hf'
      have htt0 : t0 = t := by
        rw [hpp0, ht0] at hpteam
        injection hpteam with hpteam
      apply hsl
      rw [htt0]
      rw [← hpid2, hh] at hs
      exact hs
    exact ⟨p, mem_updateFirst_of_ne hmem (by simpa using hx), hpid2, hpteam, hprole⟩

end RS

namespace RS

/-- `setRole(spymaster)`: the caller is promoted and installed in the slot;
`players1` is the roster after the optional demotion of a distinct previous
holder (`cur`), or the unchanged roster when the slot was empty or already
the caller's. -/
theorem strongInv_promote (room : RoomState) (pid : String) (p0 : Player)
    (t0 : Team) (players1 : List Player)
    (hf' : room.players.find? (fun p => p.id == pid) = some p0)
    (ht0 : p0.team = some t0)
    (h : StrongInv room)
    (hcase : (players1 = room.players ∧
        (slotOf room t0 = none ∨ slotOf room t0 = some pid)) ∨
      ∃ cur, slotOf room t0 = some cur ∧ cur ≠ pid ∧
        players1 = updateFirst (fun p => p.id == cur)
          (fun p => { p with role := .guesser }) room.players) :
    StrongInv (setSlot { room with
      players := (updateFirst (fun p => p.id == pid)
        (fun p => { p with role := .spymaster }) players1) } t0 (some pid)) := by
  obtain ⟨h1, h2, h3⟩ := h
  have hnd1 : (players1.map (fun p => p.id)).Nodup := by
    rcases hcase with ⟨hpl, _⟩ | ⟨cur, _, _, hpl⟩
    · rw [hpl]; exact h1
    · rw [hpl]
      rw [@updateFirst_map Player String (fun p => p.id) (fun p => p.id == cur)
        (fun p => { p with role := .guesser }) (fun _ => rfl) room.players]
      exact h1
  have hfind1 : players1.find? (fun p => p.id == pid) = some p0 := by
    rcases hcase with ⟨hpl, _⟩ | ⟨cur, _, hne, hpl⟩
    · rw [hpl]; exact hf'
    · rw [hpl]
      rw [@updateFirst_find?_ne Player (fun p => p.id == cur) (fun p => p.id == pid)
        (fun p => { p with role := .guesser })
        (fun a ha => by
          have h1a : a.id = cur := by simpa using ha
          simpa [h1a] using hne)
        (fun _ => rfl) room.players]
      exact hf'
  have hmem1_spy : ∀ q ∈ players1, q.role = .spymaster → q ∈ room.players := by
    intro q hq hqrole
    rcases hcase with ⟨hpl, _⟩ | ⟨cur, _, _, hpl⟩
    · rw [hpl] at hq; exact hq
    · rw [hpl] at hq
      rcases mem_updateFirst hq with hm | ⟨b, _, hqb⟩
      · exact hm
      · exfalso
        rw [hqb] at hqrole
        exact absurd hqrole (by simp)
  have hplayers : (setSlot { room with
      players := (updateFirst (fun p => p.id == pid)
        (fun p => { p with role := .spymaster }) players1) } t0 (some pid)).players
        = updateFirst (fun p => p.id == pid)
            (fun p => { p with role := .spymaster }) players1 := by
    cases t0 <;> rfl
  have hslot0 : slotOf (setSlot { room with
      players := (updateFirst (fun p => p.id == pid)
        (fun p => { p with role := .spymaster }) players1) } t0 (some pid)) t0
        = some pid := slotOf_setSlot_same _ _ _
  have hslotO : ∀ t, t ≠ t0 → slotOf (setSlot { room with
      players := (updateFirst (fun p => p.id == pid)
        (fun p => { p with role := .spymaster }) players1) } t0 (some pid)) t
        = slotOf room t := by
    intro t htne
    cases t0 <;> cases t <;> first | rfl | exact absurd rfl htne
  refine ⟨?_, ?_, ?_⟩
  · rw [hplayers]
    rw [@updateFirst_map Player String (fun p => p.id) (fun p => p.id == pid)
      (fun p => { p with role := .spymaster }) (fun _ => rfl) players1]
    exact hnd1
  · intro p' hp' hrole'
    rw [hplayers] at hp'
    by_cases hx : p'.id = pid
    · have heq := mem_updateFirst_key_eq (k := fun q : Player => q.id) hnd1 hfind1 hp' hx
      refine ⟨t0, ?_, ?_⟩
      · rw [heq]
        exact ht0
      · rw [hslot0, heq]
        show some pid = some p0.id
        have : p0.id = pid := by simpa using List.find?_some hf'
        rw [this]
    · have hmem1 : p' ∈ players1 := by
        rcases mem_updateFirst hp' with hm | ⟨a, hfa, hpa⟩
        · exact hm
        · exfalso
          apply hx
          rw [hpa]
          show a.id = pid
          have := List.find?_some hfa
          simpa using this
      have hmem : p' ∈ room.players := hmem1_spy p' hmem1 hrole'
      obtain ⟨t', ht', hs'⟩ := h2 p' hmem hrole'
      have htne : t' ≠ t0 := by
        intro hh
        subst hh
        rcases hcase with ⟨hpl, hsl⟩ | ⟨cur, hcur, hne, hpl⟩
        · rcases hsl with hsl | hsl
          · rw [hsl] at hs'
            exact Option.noConfusion hs'
          · rw [hsl] at hs'
            injection hs' with hs'
            exact hx hs'.symm
        · rw [hcur] at hs'
          injection hs' with hs'
          -- p' has id cur and role spymaster but survived in players1
          rw [hpl] at hmem1
          obtain ⟨q0, hq0mem, hq0id, _, _⟩ := h3 t' cur hcur
          have hfq0 : room.players.find? (fun b => b.id == cur) = some q0 := by
            have := find?_of_mem_nodup (fun q : Player => q.id) h1 hq0mem
            simpa [hq0id] using this
          have heq := mem_updateFirst_key_eq (k := fun q : Player => q.id) h1
            hfq0 hmem1 hs'.symm
          rw [heq] at hrole'
          exact absurd hrole' (by simp)
      exact ⟨t', ht', (hslotO t' htne).trans hs'⟩
  · intro t pid2 hs
    by_cases htt : t = t0
    · subst htt
      rw [hslot0] at hs
      injection hs with hs
      subst hs
      refine ⟨{ p0 with role := .spymaster }, ?_, ?_, ht0, rfl⟩
      · rw [hplayers]
        exact mem_updateFirst_self hfind1
      · show p0.id = pid
        simpa using List.find?_some hf'
    · rw [hslotO t htt] at hs
      obtain ⟨p, hmem, hpid2, hpteam, hprole⟩ := h3 t pid2 hs
      have hx2 : p.id ≠ pid := by
        intro hh
        have hfp : room.players.find? (fun q => q.id == pid) = some p := by
          have := find?_of_mem_nodup (fun q : Player => q.id) h1 hmem
          simpa [hh] using this
        have hpp0 : p = p0 := by
          rw [hfp] at hf'
          injection hf'
        rw [hpp0, ht0] at hpteam
        injection hpteam with hpteam
        exact htt hpteam.symm
      have hmem1 : p ∈ players1 := by
        rcases hcase with ⟨hpl, _⟩ | ⟨cur, hcur, hne, hpl⟩
        · rw [hpl]; exact hmem
        · rw [hpl]
          refine mem_updateFirst_of_ne hmem ?_
          have hx3 : p.id ≠ cur := by
            intro hh
            obtain ⟨q, hqmem, hqid, hqteam, hqrole⟩ := h3 t0 cur hcur
            have hpq : p = q := eq_of_mem_map_nodup h1 hmem hqmem (by rw [hh, hqid])
            rw [hpq, hqteam] at hpteam
            injection hpteam with hpteam
            exact htt hpteam.symm
          simpa using hx3
      rw [hplayers]
      exact ⟨p, mem_updateFirst_of_ne hmem1 (by simpa using hx2), hpid2, hpteam, hprole⟩

end RS

namespace RS

/-- `setRole` preserves the strengthened invariant, in all branches. -/
theorem strongInv_setRole (room : RoomState) (pid : String) (rl : Role)
    (h : StrongInv room) : StrongInv (applyOp room (.setRole pid rl)) := by
  dsimp only [applyOp]
  unfold setRole
  cases hf : findPlayer room pid with
  | none => exact h
  | some p0 =>
    have hf' : room.players.find? (fun p => p.id == pid) = some p0 := hf
    dsimp only
    cases ht : p0.team with
    | none => exact h
    | some t0 =>
      dsimp only
      cases rl with
      | spymaster =>
        dsimp only
        cases hcur : slotOf room t0 with
        | none =>
          dsimp only
          exact strongInv_promote room pid p0 t0 room.players hf' ht h
            (Or.inl ⟨rfl, Or.inl hcur⟩)
        | some cur =>
          dsimp only
          by_cases hne : cur = pid
          · rw [if_neg (by simp [hne])]
            refine strongInv_promote room pid p0 t0 room.players hf' ht h
              (Or.inl ⟨rfl, Or.inr ?_⟩)
            rw [← hne]
            exact hcur
          · rw [if_pos hne]
            exact strongInv_promote room pid p0 t0
              (updateFirst (fun p => p.id == cur)
                (fun p => { p with role := .guesser }) room.players) hf' ht h
              (Or.inr ⟨cur, hcur, hne, rfl⟩)
      | guesser =>
        dsimp only
        by_cases hc : slotOf room t0 = some pid
        · rw [if_pos hc]
          exact strongInv_demote_holder room pid p0 t0 hf' hc h
        · rw [if_neg hc]
          exact strongInv_demote_nonholder room pid p0 t0 hf' ht hc h

end RS

namespace RS

/-- `toggleMic` preserves the strengthened invariant: it only flips a mic
flag. -/
theorem strongInv_toggleMic (room : RoomState) (pid : String)
    (h : StrongInv room) : StrongInv (applyOp room (.toggleMic pid)) := by
  dsimp only [applyOp]
  unfold toggleMic
  cases hf : findPlayer room pid with
  | none => exact h
  | some p =>
    dsimp only
    exact strongInv_updatePlayers room pid
      (fun q => { q with micMuted := !q.micMuted })
      (fun _ => rfl) (fun _ => rfl) (fun _ => rfl) h

/-- One benign step preserves the strengthened invariant. -/
theorem strongInv_applyOp (room : RoomState) (op : Op)
    (hok : okStepB room op = true) (h : StrongInv room) :
    StrongInv (applyOp room op) := by
  cases op with
  | joinRoom pid name => exact strongInv_joinRoom room pid name h
  | selectTeam pid t => exact strongInv_selectTeam room pid t hok h
  | setRole pid r => exact strongInv_setRole room pid r h
  | sendHint pid w n =>
    dsimp only [applyOp]
    cases hres : sendHint room pid w n with
    | error e => exact h
    | ok r =>
      obtain ⟨hp, hr, hb⟩ := sendHint_frame room pid w n r hres
      exact strongInv_frame hp hr hb h
  | revealCard pid cid =>
    dsimp only [applyOp]
    cases hres : revealCard room pid cid with
    | error e => exact h
    | ok r =>
      obtain ⟨hp, hr, hb⟩ := revealCard_frame room pid cid r hres
      exact strongInv_frame hp hr hb h
  | endTurn pid =>
    dsimp only [applyOp]
    cases hres : endTurn room pid with
    | error e => exact h
    | ok r =>
      obtain ⟨hp, hr, hb⟩ := endTurn_frame room pid r hres
      exact strongInv_frame hp hr hb h
  | resetGame pid pool r1 r2 ts =>
    dsimp only [applyOp]
    cases hres : resetGame room pid pool r1 r2 ts with
    | error e => exact h
    | ok r =>
      obtain ⟨hp, hr, hb⟩ := resetGame_frame room pid pool r1 r2 ts r hres
      exact strongInv_frame hp hr hb h
  | toggleMic pid => exact strongInv_toggleMic room pid h

/-- A benign trace preserves the strengthened invariant. -/
theorem strongInv_applyOps (ops : List Op) (room : RoomState)
    (hok : okTraceB room ops = true) (h : StrongInv room) :
    StrongInv (applyOps room ops) := by
  induction ops generalizing room with
  | nil => exact h
  | cons op rest ih =>
    rw [show okTraceB room (op :: rest)
      = (okStepB room op && okTraceB (applyOp room op) rest) from rfl,
      Bool.and_eq_true] at hok
    exact ih (applyOp room op) hok.2 (strongInv_applyOp room op hok.1 h)

/-- The strengthened invariant implies the claim's slot invariant. -/
theorem slotInv_of_strongInv (room : RoomState) (h : StrongInv room) :
    SlotInv room := by
  obtain ⟨h1, h2, h3⟩ := h
  have hok : ∀ t, slotOkB room t = true := by
    intro t
    unfold slotOkB
    cases hs : slotOf room t with
    | none => rfl
    | some pid =>
      obtain ⟨p, hmem, hpid, hpteam, hprole⟩ := h3 t pid hs
      rw [List.any_eq_true]
      exact ⟨p, hmem, by simp [hpid, hpteam, hprole]⟩
  have hcount : ∀ t, teamSpymasterCount room t ≤ 1 := by
    intro t
    unfold teamSpymasterCount
    cases hs : slotOf room t with
    | none =>
      have hzero : room.players.countP
          (fun p => p.team == some t && p.role == Role.spymaster) = 0 := by
        rw [List.countP_eq_zero]
        intro p hp hpred
        have hpt : p.team = some t ∧ p.role = Role.spymaster := by
          simpa using hpred
        obtain ⟨t', ht', hsl⟩ := h2 p hp hpt.2
        rw [hpt.1] at ht'
        injection ht' with ht'
        rw [← ht', hs] at hsl
        exact Option.noConfusion hsl
      rw [hzero]
      exact Nat.zero_le 1
    | some c =>
      refine @countP_le_one_of_key Player (fun p : Player => p.id) room.players
        (fun p => p.team == some t && p.role == Role.spymaster) c h1 ?_
      intro p hp hpred
      have hpt : p.team = some t ∧ p.role = Role.spymaster := by
        simpa using hpred
      obtain ⟨t', ht', hsl⟩ := h2 p hp hpt.2
      rw [hpt.1] at ht'
      injection ht' with ht'
      rw [← ht', hs] at hsl
      injection hsl with hsl
      exact hsl.symm
  exact ⟨hok .red, hok .blue, hcount .red, hcount .blue⟩

/-- A freshly created room satisfies the strengthened invariant: one
guesser-role player, both slots empty. -/
theorem strongInv_createRoom (roomCode pid name : String) (pool : List String)
    (r1 r2 : List Nat) (ts : Nat) :
    StrongInv (createRoom roomCode pid name pool r1 r2 ts).1 := by
  refine ⟨?_, ?_, ?_⟩
  · show ([createPlayer pid (jsTrim name)].map (fun p => p.id)).Nodup
    simp
  · intro p hp hrole
    have hp' : p ∈ [createPlayer pid (jsTrim name)] := hp
    rw [List.mem_singleton] at hp'
    rw [hp'] at hrole
    exact absurd hrole (by simp [createPlayer])
  · intro t pid2 hs
    exfalso
    cases t with
    | red =>
      have hs' : (none : Option String) = some pid2 := hs
      exact Option.noConfusion hs'
    | blue =>
      have hs' : (none : Option String) = some pid2 := hs
      exact Option.noConfusion hs'

end RS

instance slotInvDecidable (room : RS.RoomState) : Decidable (RS.SlotInv room) :=
  inferInstanceAs (Decidable (_ ∧ _ ∧ _ ∧ _))

/-- C5 counterexample: the original claim fails.  In a fresh room the only
player selects red, becomes red spymaster, then calls `selectTeam(blue)`;
`roomStore.selectTeam` updates only the player's `team`, clearing neither
the role nor `redSpymasterId`, so the red slot now points at a blue-team
player and the slot invariant is broken. -/
theorem c5_counterexample :
    ¬ RS.SlotInv (RS.applyOps (RS.createRoom "R" "A" "a" [] [] [] 0).1
      [.selectTeam "A" .red, .setRole "A" .spymaster, .selectTeam "A" .blue]) := by
  decide

/-- C5 (amended): starting from a freshly created room, after any sequence of
joinRoom / selectTeam / setRole / sendHint / revealCard / endTurn /
resetGame / toggleMic operations in which no current spymaster switches to a
different team via `selectTeam`, the state satisfies the slot invariant:
each team's spymaster slot is either null or the id of a player whose team
matches the slot and whose role is spymaster, and at most one player per
team has role spymaster.  (Unrestricted, the claim is false: `selectTeam`
by a sitting spymaster changes the team but clears neither the role nor the
slot — see the counterexample.) -/
theorem c5_slot_invariant (roomCode pid name : String) (pool : List String)
    (r1 r2 : List Nat) (ts : Nat) (ops : List RS.Op)
    (hok : RS.okTraceB (RS.createRoom roomCode pid name pool r1 r2 ts).1 ops = true) :
    RS.SlotInv (RS.applyOps (RS.createRoom roomCode pid name pool r1 r2 ts).1 ops) :=
  RS.slotInv_of_strongInv _
    (RS.strongInv_applyOps ops _ hok
      (RS.strongInv_createRoom roomCode pid name pool r1 r2 ts))

/-- C5 witness: a concrete benign trace — a second player joins, selects
red, becomes red spymaster, and the original player then replaces them —
keeps the slot invariant. -/
theorem c5_witness :
    RS.okTraceB (RS.createRoom "R" "A" "a" [] [] [] 0).1
        [.joinRoom "B" "b", .selectTeam "B" .red, .setRole "B" .spymaster,
         .selectTeam "A" .red, .setRole "A" .spymaster] = true ∧
      RS.SlotInv (RS.applyOps (RS.createRoom "R" "A" "a" [] [] [] 0).1
        [.joinRoom "B" "b", .selectTeam "B" .red, .setRole "B" .spymaster,
         .selectTeam "A" .red, .setRole "A" .spymaster]) :=
  ⟨by decide, c5_slot_invariant "R" "A" "a" [] [] [] 0 _ (by decide)⟩
